import Mathlib

/-!
Verification development for the natural-language query service
(`backend/api`): a shallow embedding of its query classification, SQL
templating, schema matching, caching, history and ingestion code, with
theorems checking the specification's claims against it.

External collaborators (SQLAlchemy engine, the vector store retriever,
the rapidfuzz scorer, disk I/O, wall-clock time) are modelled as
explicit oracle parameters, as the specification places them out of
scope; everything else is translated from the Python source.
-/

/-- Python `str.lower()` (ASCII range, which is all the code relies on). -/
def pyLower (s : String) : String := ⟨s.data.map Char.toLower⟩

/-- Python `pat in s` substring test. -/
def pyContains (s pat : String) : Bool := decide (pat.data <:+: s.data)

/-- Python dict lookup `d.get(k)` on an insertion-ordered association list. -/
def dictGet {α : Type} (k : String) : List (String × α) → Option α
  | [] => none
  | (k', v) :: rest => if k' = k then some v else dictGet k rest

/-- Python dict assignment `d[k] = v`: updates the value in place if the key
is present (keeping its position), otherwise appends the new binding. -/
def dictSet {α : Type} (k : String) (v : α) : List (String × α) → List (String × α)
  | [] => [(k, v)]
  | (k', v') :: rest => if k' = k then (k, v) :: rest else (k', v') :: dictSet k v rest

/-- The fixed document keyword list of `QueryEngine.classify`. -/
def doc_keywords : List String :=
  ["resume", "document", "policy", "contract", "review", "pdf", "doc"]

/-- The fixed SQL keyword list of `QueryEngine.classify`. -/
def sql_keywords : List String :=
  ["count", "average", "avg", "sum", "list", "show", "who", "employees", "department"]

/-- `QueryEngine.classify`: keyword membership test over the lowercased query. -/
def classify (user_query : String) : String :=
  let q := pyLower user_query
  let is_doc := doc_keywords.any (fun k => pyContains q k)
  let is_sql := sql_keywords.any (fun k => pyContains q k)
  if is_doc && is_sql then "hybrid"
  else if is_doc then "document"
  else "sql"

/-- A character matched by the regex class `[a-zA-Z_]`. -/
def isTokenChar (c : Char) : Bool := c.isAlpha || c == '_'

/-- Splits a character list into the maximal runs of token characters,
accumulating the current run in reverse in `acc`. -/
def tokenRunsAux : List Char → List Char → List String
  | [], acc => if acc.isEmpty then [] else [⟨acc.reverse⟩]
  | c :: cs, acc =>
    if isTokenChar c then tokenRunsAux cs (c :: acc)
    else if acc.isEmpty then tokenRunsAux cs []
    else ⟨acc.reverse⟩ :: tokenRunsAux cs []

/-- `re.findall(r"[a-zA-Z_]+", s)`: all maximal `[a-zA-Z_]+` runs in order. -/
def pyFindTokens (s : String) : List String := tokenRunsAux s.data []

/-- The stop words removed from the token list in the generic SQL branch. -/
def stop_words : List String := ["show", "list", "me", "all"]

/-- The filtered token list of `_run_sql_query`'s generic branch, computed
over the already lowercased query text. -/
def filteredTokens (q : String) : List String :=
  (pyFindTokens q).filter (fun t => !(stop_words.contains t))

/-- One entry of a table's `columns` list (only the `name` key is read by the
query engine). -/
structure ColumnInfo where
  name : String

deriving DecidableEq, Repr

/-- One value of the schema's `tables` dict. -/
structure TableInfo where
  columns : List ColumnInfo

deriving DecidableEq, Repr

/-- One value of `hints["column_maps"]`: the per-table role hints, each an
optional column name. -/
structure ColumnHints where
  name : Option String
  salary : Option String
  department : Option String
  date : Option String
  manager : Option String

deriving DecidableEq, Repr

/-- `hints` defaults to `{}` when the table has no entry in `column_maps`;
every `.get` on it then yields `None`. -/
def emptyHints : ColumnHints := ⟨none, none, none, none, none⟩

/-- The parts of the schema dict read by `QueryEngine` and
`map_natural_language_to_schema`. -/
structure DbSchema where
  tables : List (String × TableInfo)
  employeeTables : List String
  columnMaps : List (String × ColumnHints)

deriving DecidableEq, Repr

/-- Python truthiness of an `Optional[str]`: `None` and `""` are falsy. -/
def truthyS : Option String → Bool
  | none => false
  | some s => s ≠ ""

/-- Rendering an `Optional[str]` inside an f-string: `None` renders as the
text "None". -/
def optStr : Option String → String
  | none => "None"
  | some s => s

/-- `SchemaDiscovery.map_natural_language_to_schema`, restricted to the
`"table"` entry actually used by `_run_sql_query`: the first employee-table
hint, falling back to the first table when the hint list is empty or absent,
and `None` when there is no table at all. -/
def mainTable (schema : DbSchema) : Option String :=
  let cands := if schema.employeeTables.isEmpty then schema.tables.map Prod.fst
               else schema.employeeTables
  cands.head?

/-- `QueryEngine.optimize_sql_query`: clamps the page to at least 1 and the
page size into [1, 200], and appends `LIMIT .. OFFSET ..` unless the query
already contains " limit " case-insensitively. -/
def optimize_sql_query (sql : String) (page page_size : Int) : String :=
  let page := max 1 page
  let page_size := max 1 (min 200 page_size)
  let offset := (page - 1) * page_size
  if pyContains (pyLower sql) " limit " then sql
  else sql ++ " LIMIT " ++ toString page_size ++ " OFFSET " ++ toString offset

/-- Python `" OR ".join(filters)`. -/
def joinOr : List String → String
  | [] => ""
  | [f] => f
  | f :: rest => f ++ " OR " ++ joinOr rest

/-- The loop of the generic branch: for each token, append a
`LOWER(name_col) LIKE :tkn` filter, and when the department column is truthy
also a `LOWER(dept_col) LIKE :tkn_d` filter together with its `tkn_d`
parameter, then bind the `tkn` parameter; filters and the params dict grow
left to right exactly as in the Python loop. -/
def genericLoop (name_col : String) (dept_col : Option String) :
    List String → List String → List (String × String) → List String × List (String × String)
  | [], fs, ps => (fs, ps)
  | t :: ts, fs, ps =>
    let fs := fs ++ ["LOWER(" ++ name_col ++ ") LIKE :" ++ t]
    let fs' := if truthyS dept_col then
        fs ++ ["LOWER(" ++ optStr dept_col ++ ") LIKE :" ++ t ++ "_d"]
      else fs
    let ps' := if truthyS dept_col then
        dictSet (t ++ "_d") ("%" ++ t ++ "%") ps
      else ps
    genericLoop name_col dept_col ts fs' (dictSet t ("%" ++ t ++ "%") ps')

/-- `col_names[0]`: raises `IndexError` on an empty list. -/
def headOrIndexError : List String → Except String String
  | [] => .error "list index out of range"
  | c :: _ => .ok c

/-- `hints.get("name") or col_names[0]`: the hint when it is truthy,
otherwise the first column name (which may raise). -/
def nameColOf (hints : ColumnHints) (colNames : List String) : Except String String :=
  match hints.name with
  | some s => if s = "" then headOrIndexError colNames else .ok s
  | none => headOrIndexError colNames

/-- Condition of the COUNT branch of `_run_sql_query` (on the lowercased
query): `"how many" in q or ("count" in q and "employees" in q)`. -/
def count_cond (q : String) : Bool :=
  pyContains q "how many" || (pyContains q "count" && pyContains q "employees")

/-- Condition of the average-salary branch (on the lowercased query):
`"average" in q and ("salary" in q or "pay" in q or "compensation" in q)
and dept_col`. -/
def avg_cond (q : String) (dept_col : Option String) : Bool :=
  pyContains q "average" &&
    (pyContains q "salary" || pyContains q "pay" || pyContains q "compensation") &&
    truthyS dept_col

/-- Condition of the hire-date branch (on the lowercased query). -/
def hire_cond (q : String) : Bool :=
  ["hired this year", "joined this year", "hired in", "join date"].any
    (fun k => pyContains q k)

/-- The pure core of `QueryEngine._run_sql_query`: schema lookup, template
selection and parameter binding, up to (but not including) execution on the
engine. Returns the optimized SQL text, the params dict, and `col_names`
(used for the empty-result column list); errors model the Python exceptions
(`ValueError` when no main table exists, `KeyError`/`IndexError` from the
dict and list accesses). -/
def buildSqlParams (schema : DbSchema) (user_query : String) (page page_size : Int) :
    Except String (String × List (String × String) × List String) :=
  match mainTable schema with
  | none => Except.error "Could not determine main table. Ensure database has an employee-like table."
  | some table =>
  match dictGet table schema.tables with
  | none => Except.error ("'" ++ table ++ "'")
  | some tinfo =>
  let col_names := tinfo.columns.map ColumnInfo.name
  let hints := (dictGet table schema.columnMaps).getD emptyHints
  match nameColOf hints col_names with
  | Except.error e => Except.error e
  | Except.ok name_col =>
  let salary_col := hints.salary
  let dept_col := hints.department
  let date_col := hints.date
  let q := pyLower user_query
  let (sql, params) :=
    if count_cond q then
      ("SELECT COUNT(*) as count FROM " ++ table, ([] : List (String × String)))
    else if avg_cond q dept_col then
      ("SELECT " ++ optStr dept_col ++ " as department, AVG(" ++ optStr salary_col ++
         ") as average_salary FROM " ++ table ++ " GROUP BY " ++ optStr dept_col ++
         " ORDER BY average_salary DESC", [])
    else if hire_cond q then
      if truthyS date_col then
        ("SELECT * FROM " ++ table ++ " WHERE strftime('%Y', " ++ optStr date_col ++
           ") = strftime('%Y','now') ORDER BY " ++ optStr date_col ++ " DESC", [])
      else
        ("SELECT * FROM " ++ table ++ " LIMIT 100", [])
    else
      let (like_filters, params) := genericLoop name_col dept_col (filteredTokens q) [] []
      if like_filters.isEmpty then
        ("SELECT * FROM " ++ table, params)
      else
        ("SELECT * FROM " ++ table ++ " WHERE " ++ joinOr like_filters, params)
  Except.ok (optimize_sql_query sql page page_size, params, col_names)

deriving instance DecidableEq for Except

set_option maxRecDepth 4096

/-- A small concrete schema used in examples and witnesses. -/
def schemaEx : DbSchema :=
  { tables := [("employees", ⟨[⟨"emp_name"⟩, ⟨"dept"⟩, ⟨"salary"⟩]⟩)],
    employeeTables := ["employees"],
    columnMaps := [("employees", ⟨some "emp_name", some "salary", some "dept", none, none⟩)] }

/-- An atom of SQL text as assembled by `_run_sql_query`: a fixed template
fragment, a schema-derived name, a ':'-prefixed bind-parameter name built
from a user token (plain or with the fixed `_d` suffix), or an integer
literal from the pagination arithmetic. -/
inductive SqlAtom where
  | fixedFrag : String → SqlAtom
  | schemaName : String → SqlAtom
  | holder : String → SqlAtom
  | holderD : String → SqlAtom
  | intLit : Int → SqlAtom

deriving DecidableEq, Repr

/-- The text contributed by one atom. -/
def SqlAtom.render : SqlAtom → String
  | SqlAtom.fixedFrag s => s
  | SqlAtom.schemaName s => s
  | SqlAtom.holder t => ":" ++ t
  | SqlAtom.holderD t => ":" ++ t ++ "_d"
  | SqlAtom.intLit n => toString n

/-- Concatenation of a list of atoms. -/
def renderAtoms : List SqlAtom → String
  | [] => ""
  | a :: rest => a.render ++ renderAtoms rest

/-- Every literal fragment occurring in the f-string templates of
`_run_sql_query` and `optimize_sql_query` (including the "None" rendering of
an absent hint). -/
def sqlFixedFragments : List String :=
  ["SELECT COUNT(*) as count FROM ", "SELECT ", " as department, AVG(",
   ") as average_salary FROM ", " GROUP BY ", " ORDER BY average_salary DESC",
   "SELECT * FROM ", " WHERE strftime('%Y', ", ") = strftime('%Y','now') ORDER BY ",
   " DESC", " LIMIT 100", " WHERE ", "LOWER(", ") LIKE ", " OR ",
   " LIMIT ", " OFFSET ", "None"]

/-- The strings stored in one `column_maps` hint entry. -/
def hintStrings (h : ColumnHints) : List String :=
  [h.name, h.salary, h.department, h.date, h.manager].filterMap id

/-- All schema-derived strings: table names, column names, and the hint
values of `column_maps` (themselves derived from the schema by
`SchemaDiscovery`). -/
def schemaStrings (schema : DbSchema) : List String :=
  schema.tables.map Prod.fst ++
    (schema.tables.map (fun p => p.2.columns.map ColumnInfo.name)).flatten ++
    (schema.columnMaps.map (fun p => hintStrings p.2)).flatten

/-- Whether an atom only carries permitted text: a known template fragment, a
schema-derived name, or a placeholder whose token comes from the query's
filtered token list. -/
def atomOk (names toks : List String) : SqlAtom → Bool
  | SqlAtom.fixedFrag s => sqlFixedFragments.contains s
  | SqlAtom.schemaName s => names.contains s
  | SqlAtom.holder t => toks.contains t
  | SqlAtom.holderD t => toks.contains t
  | SqlAtom.intLit _ => true

/-- `s` decomposes into permitted atoms. -/
def Decomp (names toks : List String) (s : String) : Prop :=
  ∃ atoms : List SqlAtom, s = renderAtoms atoms ∧ ∀ a ∈ atoms, atomOk names toks a = true

/-- Helper for the C1 counterexample: `s` does not contain the user token
"zzqq". -/
def noZzqq (s : String) : Bool := !(pyContains s "zzqq")

/-- `rapidfuzz.process.extractOne` over an abstract scorer (the WRatio
scorer is an external library, modelled as a parameter): the first
candidate attaining the maximal score, with its score. -/
def extractOne (score : String → String → Nat) (token : String) :
    List String → Option (String × Nat)
  | [] => none
  | c :: cs =>
    match extractOne score token cs with
    | none => some (c, score token c)
    | some (b, sb) =>
      if score token c ≥ sb then some (c, score token c) else some (b, sb)

/-- `best_match`: `None` on an empty candidate list, otherwise the best
fuzzy match provided its score is at least 75. -/
def best_match (score : String → String → Nat) (token : String)
    (candidates : List String) : Option String :=
  if candidates.isEmpty then none
  else
    match extractOne score token candidates with
    | none => none
    | some (m, s) => if s ≥ 75 then some m else none

/-- The dict comprehension `{c.lower(): c for c in candidates}`, iterating
the candidates in order into an insertion-ordered dict (a repeated
lowercased key keeps its position but takes the later original spelling). -/
def buildCandsLowerAux (acc : List (String × String)) : List String → List (String × String)
  | [] => acc
  | c :: cs => buildCandsLowerAux (dictSet (pyLower c) c acc) cs

/-- `cands_lower` of `best_match_from_list`. -/
def buildCandsLower (candidates : List String) : List (String × String) :=
  buildCandsLowerAux [] candidates

/-- The inner loop of the direct-containment scan: first dict entry whose
(lowercased) key contains the synonym. -/
def findInCands (syn : String) : List (String × String) → Option String
  | [] => none
  | (cl, orig) :: rest => if pyContains cl syn then some orig else findInCands syn rest

/-- The direct-containment double loop: synonyms in list order, dict entries
in insertion order. -/
def firstContains (synonyms : List String) (candsLower : List (String × String)) :
    Option String :=
  match synonyms with
  | [] => none
  | syn :: rest =>
    match findInCands syn candsLower with
    | some orig => some orig
    | none => firstContains rest candsLower

/-- Python `" ".join(synonyms)`. -/
def joinSpace : List String → String
  | [] => ""
  | [s] => s
  | s :: rest => s ++ " " ++ joinSpace rest

/-- `best_match_from_list`: direct containment scan over the lowercased
candidates first, then the fuzzy fallback; a falsy fuzzy result (None or
the empty string) yields `None`. -/
def best_match_from_list (score : String → String → Nat)
    (synonyms candidates : List String) : Option String :=
  let cands_lower := buildCandsLower candidates
  match firstContains synonyms cands_lower with
  | some orig => some orig
  | none =>
    match best_match score (joinSpace synonyms) (cands_lower.map Prod.fst) with
    | none => none
    | some bm => if bm = "" then none else dictGet bm cands_lower

/-- A trivial scorer for the concrete C5 inputs (the scorer is irrelevant
when direct containment succeeds). -/
def zeroScore (_x _y : String) : Nat := 0

/-- Helper for the C5 counterexample: the lowercased candidate contains the
synonym "name". -/
def containsNameSyn (c : String) : Bool := pyContains (pyLower c) "name"

/-- One entry of `state.query_history` (query text, final query type,
`perf_counter` timestamp). -/
structure HistEntry where
  query : String
  qtype : String
  ts : Nat

deriving DecidableEq, Repr

/-- The SQL result dict built by `_run_sql_query` after execution: column
list (from the first row, or the schema's column names when no row came
back), rows, and the requested page window. Cell values are modelled as
strings. -/
structure SqlResult where
  columns : List String
  rows : List (List (String × String))
  page : Nat
  page_size : Nat

deriving DecidableEq, Repr

/-- One entry of the document-search result list. -/
structure DocResult where
  text : String
  metadata : List (String × String)

deriving DecidableEq, Repr

/-- One entry of the sources list: a copy of the document metadata plus the
optional score attribute. -/
structure SourceInfo where
  metadata : List (String × String)
  score : Option String

deriving DecidableEq, Repr

/-- The `results` field of the response payload: one shape per query type. -/
inductive QResults where
  | table : SqlResult → QResults
  | docs : List DocResult → QResults
  | hybrid : SqlResult → List DocResult → QResults
  | err : String → QResults

deriving DecidableEq, Repr

/-- The response payload of `process_query` (`performance` and `cache`
sub-dicts flattened into their fields). -/
structure Payload where
  query_type : String
  results : QResults
  sources : List SourceInfo
  response_time_ms : Nat
  cache_hit : Bool
  cache_hits : Nat
  cache_misses : Nat

deriving DecidableEq, Repr

/-- A document returned by the vector-store retriever. -/
structure Doc where
  page_content : String
  metadata : List (String × String)
  score : Option String

deriving DecidableEq, Repr

/-- The external collaborators of the query engine, which the specification
places out of scope: the SQLAlchemy engine executing a statement with its
bound params, and the optional vector-store retriever (absent when
`state.vectorstore is None`). -/
structure Env where
  execSql : String → List (String × String) → List (List (String × String))
  retriever : Option (String → Nat → List Doc)

/-- The parts of `AppState` read and written by `process_query`, with the
`QueryCache` inlined (its TTL clock and size-bound eviction belong to the
third-party `TTLCache`, used before expiry/eviction as an ordinary map). -/
structure EngineState where
  schema : DbSchema
  cacheEntries : List (String × Payload)
  cacheHits : Nat
  cacheMisses : Nat
  history : List HistEntry

/-- `QueryCache.get`: counts a miss when the key is absent and a hit
otherwise. -/
def cache_get (st : EngineState) (key : String) : Option Payload × EngineState :=
  match dictGet key st.cacheEntries with
  | none => (none, { st with cacheMisses := st.cacheMisses + 1 })
  | some v => (some v, { st with cacheHits := st.cacheHits + 1 })

/-- Python `lst[-n:]`: the last `n` elements. -/
def lastN {α : Type} (n : Nat) (l : List α) : List α := l.drop (l.length - n)

/-- `QueryEngine._run_sql_query` in full: statement construction followed by
execution on the engine and result-dict assembly. -/
def run_sql (env : Env) (schema : DbSchema) (user_query : String)
    (page page_size : Nat) : Except String SqlResult :=
  match buildSqlParams schema user_query (page : Int) (page_size : Int) with
  | Except.error e => Except.error e
  | Except.ok (sql, params, col_names) =>
    let rows := env.execSql sql params
    Except.ok { columns := match rows.head? with
                  | some r => r.map Prod.fst
                  | none => col_names,
                rows := rows, page := page, page_size := page_size }

/-- `QueryEngine._search_documents`: empty results without a vector store;
otherwise retrieve `k = page_size` documents, slice the page window, and
project results and sources. -/
def search_documents (env : Env) (user_query : String) (page page_size : Nat) :
    List DocResult × List SourceInfo :=
  match env.retriever with
  | none => ([], [])
  | some retr =>
    let docs := retr user_query page_size
    let start := (page - 1) * page_size
    let docs := (docs.drop start).take page_size
    (docs.map (fun d => DocResult.mk d.page_content d.metadata),
     docs.map (fun d => SourceInfo.mk d.metadata d.score))

/-- The routed execution step of `process_query` (the body of its
`try/except`): the final query type (possibly "error"), the `results`
value, and the `sources` list. -/
def routeQuery (env : Env) (schema : DbSchema) (user_query : String)
    (page page_size : Nat) : String × QResults × List SourceInfo :=
  let qtype := classify user_query
  if qtype = "document" then
    let (res, srcs) := search_documents env user_query page page_size
    ("document", QResults.docs res, srcs)
  else if qtype = "sql" then
    match run_sql env schema user_query page page_size with
    | Except.ok r => ("sql", QResults.table r, ([] : List SourceInfo))
    | Except.error e => ("error", QResults.err e, [])
  else
    match run_sql env schema user_query page page_size with
    | Except.ok r =>
      let (dres, dsrcs) := search_documents env user_query page page_size
      ("hybrid", QResults.hybrid r dres, dsrcs)
    | Except.error e => ("error", QResults.err e, [])

/-- `QueryEngine.process_query`: cache lookup (the cached dict is mutated in
place on a hit, so the refreshed hit flag and response time are visible in
the cache as well), classification, routed execution with the `try/except`
collapsing any error into an `error` payload, history append truncated to
the last 50, and cache store. `dur_ms` and `ts` stand for the wall-clock
readings. -/
def process_query (env : Env) (st : EngineState) (user_query : String)
    (page page_size : Nat) (dur_ms ts : Nat) : Payload × EngineState :=
  let cache_key := user_query ++ "|" ++ toString page ++ "|" ++ toString page_size
  match cache_get st cache_key with
  | (some cached, st1) =>
    let p := { cached with response_time_ms := dur_ms, cache_hit := true }
    (p, { st1 with cacheEntries := dictSet cache_key p st1.cacheEntries })
  | (none, st1) =>
    let rt := routeQuery env st1.schema user_query page page_size
    let qtype := rt.1
    let results := rt.2.1
    let sources := rt.2.2
    let payload : Payload :=
      { query_type := qtype, results := results, sources := sources,
        response_time_ms := dur_ms, cache_hit := false,
        cache_hits := st1.cacheHits, cache_misses := st1.cacheMisses }
    let st2 := { st1 with
      history := lastN 50 (st1.history ++ [HistEntry.mk user_query qtype ts]) }
    (payload, { st2 with cacheEntries := dictSet cache_key payload st2.cacheEntries })

/-- A concrete environment for witnesses: the engine returns no rows and no
vector store is attached. -/
def envEx : Env := { execSql := fun _ _ => [], retriever := none }

/-- A concrete engine state over `schemaEx` with empty cache and history. -/
def stEx : EngineState :=
  { schema := schemaEx, cacheEntries := [], cacheHits := 0, cacheMisses := 0, history := [] }

/-- A schema with no tables at all: `_run_sql_query` raises
`ValueError("Could not determine main table. ...")`. -/
def schemaEmptyEx : DbSchema := { tables := [], employeeTables := [], columnMaps := [] }

/-- Engine state over the empty schema. -/
def stErrEx : EngineState :=
  { schema := schemaEmptyEx, cacheEntries := [], cacheHits := 0, cacheMisses := 0,
    history := [] }

/-- One value of `state.jobs`. -/
structure JobInfo where
  status : String
  processed : Nat
  total : Nat
  errors : List String

deriving DecidableEq, Repr

/-- An uploaded file together with the outcome of saving it to disk (disk
I/O is external; `saveError = some e` models the exception raised while
writing the file). -/
structure UploadFileM where
  filename : Option String
  saveError : Option String

deriving DecidableEq, Repr

/-- Splits a character list on a separator character (the pieces, in
order; adjacent separators give empty pieces, as in Python `str.split`
with an explicit separator). -/
def splitOnChar (sep : Char) : List Char → List (List Char)
  | [] => [[]]
  | c :: cs =>
    let r := splitOnChar sep cs
    if c = sep then [] :: r
    else match r with
      | [] => [[c]]
      | h :: t => (c :: h) :: t

/-- The last element of a list, with a default. -/
def lastD {α : Type} (d : α) : List α → α
  | [] => d
  | [x] => x
  | _ :: x :: xs => lastD d (x :: xs)

/-- Python `s.split(sep)[-1]` for a one-character separator. -/
def pyLastSplit (s : String) (sep : Char) : String :=
  String.mk (lastD s.data (splitOnChar sep s.data))

/-- `safe_name`: the filename (or "upload.bin" when falsy) with any
directory components after "/" or "\\" stripped. -/
def safeName (filename : Option String) : String :=
  let base := match filename with
    | none => "upload.bin"
    | some s => if s = "" then "upload.bin" else s
  pyLastSplit (pyLastSplit base (Char.ofNat 47)) (Char.ofNat 92)

/-- The save loop of `upload_documents`: counts the files saved to disk and
collects a `name: error` line per failed save, in file order. -/
def saveLoop : List UploadFileM → Nat × List String
  | [] => (0, [])
  | f :: fs =>
    let (n, es) := saveLoop fs
    match f.saveError with
    | none => (n + 1, es)
    | some e => (n, (safeName f.filename ++ ": " ++ e) :: es)

/-- The `upload-documents` endpoint (after storage preparation): rejects an
empty file list with HTTP 400; otherwise registers a queued job under the
fresh id, saves the files recording per-file errors, resets the job's total
to the number actually saved, and answers with the job id and that count.
The background processing task runs after the response and is not modelled. -/
def upload_documents (jobs : List (String × JobInfo)) (newId : String)
    (files : List UploadFileM) : Except Nat (List (String × JobInfo) × String × Nat) :=
  if files.length = 0 then Except.error 400
  else
    let jobs1 := dictSet newId (JobInfo.mk "queued" 0 files.length []) jobs
    let (saved, errs) := saveLoop files
    let jobs2 := dictSet newId (JobInfo.mk "queued" 0 saved errs) jobs1
    Except.ok (jobs2, newId, saved)

/-- The response model of the `ingestion-status` endpoint. -/
structure IngestionStatus where
  job_id : String
  status : String
  processed : Nat
  total : Nat
  errors : List String

deriving DecidableEq, Repr

/-- The `ingestion-status/{job_id}` endpoint: HTTP 404 for an unknown job,
otherwise the job's fields echoed with the id. -/
def get_status (jobs : List (String × JobInfo)) (job_id : String) :
    Except Nat IngestionStatus :=
  match dictGet job_id jobs with
  | none => Except.error 404
  | some info =>
    Except.ok (IngestionStatus.mk job_id info.status info.processed info.total info.errors)

/-! ## Theorems -/

/-- C2: `classify` returns exactly one of "hybrid", "document", "sql":
"hybrid" iff the lowercased query contains both a document keyword and a SQL
keyword as substrings, "document" iff it contains a document keyword but no
SQL keyword, and "sql" in every other case (in particular when it contains no
keyword at all, since "sql" is returned exactly when no document keyword
occurs). -/
theorem classify_keyword_partition (q : String) :
    (classify q = "hybrid" ↔
      ((∃ k ∈ doc_keywords, pyContains (pyLower q) k = true) ∧
       (∃ k ∈ sql_keywords, pyContains (pyLower q) k = true))) ∧
    (classify q = "document" ↔
      ((∃ k ∈ doc_keywords, pyContains (pyLower q) k = true) ∧
       ¬ (∃ k ∈ sql_keywords, pyContains (pyLower q) k = true))) ∧
    (classify q = "sql" ↔ ¬ (∃ k ∈ doc_keywords, pyContains (pyLower q) k = true)) := by
  simp only [classify, List.any_eq_true]
  by_cases hd : ∃ k ∈ doc_keywords, pyContains (pyLower q) k = true <;>
    by_cases hs : ∃ k ∈ sql_keywords, pyContains (pyLower q) k = true <;>
    simp [hd, hs]

example : classify "How many employees do we have?" = "sql" := by decide

example : classify "Find resumes mentioning Python" = "hybrid" := by decide

example : classify "read the pdf" = "document" := by decide

example : classify "Show me resumes for employees in Engineering" = "hybrid" := by decide

example : classify "hello there" = "sql" := by decide

example : filteredTokens "show me engineering staff" = ["engineering", "staff"] := by decide

example : optimize_sql_query "SELECT * FROM t" 2 10 = "SELECT * FROM t LIMIT 10 OFFSET 10" := by decide

example : optimize_sql_query "SELECT * FROM t LIMIT 100" 2 10 = "SELECT * FROM t LIMIT 100" := by decide

example : optimize_sql_query "SELECT * FROM t" (-3) 1000 = "SELECT * FROM t LIMIT 200 OFFSET 0" := by decide

example : buildSqlParams schemaEx "How many employees?" 1 50 =
    Except.ok ("SELECT COUNT(*) as count FROM employees LIMIT 50 OFFSET 0", [],
      ["emp_name", "dept", "salary"]) := by decide

example : buildSqlParams schemaEx "average salary" 1 50 =
    Except.ok ("SELECT dept as department, AVG(salary) as average_salary FROM employees GROUP BY dept ORDER BY average_salary DESC LIMIT 50 OFFSET 0",
      [], ["emp_name", "dept", "salary"]) := by decide

example : buildSqlParams schemaEx "zzqq" 1 50 =
    Except.ok ("SELECT * FROM employees WHERE LOWER(emp_name) LIKE :zzqq OR LOWER(dept) LIKE :zzqq_d LIMIT 50 OFFSET 0",
      [("zzqq_d", "%zzqq%"), ("zzqq", "%zzqq%")], ["emp_name", "dept", "salary"]) := by decide

lemma pyLower_append (a b : String) : pyLower (a ++ b) = pyLower a ++ pyLower b := by
  cases a with
  | mk da =>
    cases b with
    | mk db =>
      refine String.ext ?_
      simp [pyLower, String.data_append]

lemma pyContains_append_left (s t pat : String) (h : pyContains s pat = true) :
    pyContains (s ++ t) pat = true := by
  simp only [pyContains, decide_eq_true_eq] at h ⊢
  rw [String.data_append]
  exact h.trans ( List.prefix_append s.data t.data).isInfix

lemma pyContains_append_right (s t pat : String) (h : pyContains t pat = true) :
    pyContains (s ++ t) pat = true := by
  simp only [pyContains, decide_eq_true_eq] at h ⊢
  rw [String.data_append]
  exact h.trans ( List.suffix_append s.data t.data).isInfix

lemma pyContains_refl (s : String) : pyContains s s = true := by
  simp [pyContains]

/-- The string appended by `optimize_sql_query` contains " limit " after
lowercasing, so a second application never appends again. -/
lemma appended_has_limit (sql : String) (a b : String) :
    pyContains (pyLower (sql ++ " LIMIT " ++ a ++ " OFFSET " ++ b)) " limit " = true := by
  have h1 : pyContains (pyLower (sql ++ " LIMIT ")) " limit " = true := by
    rw [pyLower_append]
    have : pyLower " LIMIT " = " limit " := by decide
    rw [this]
    exact pyContains_append_right _ _ _ (pyContains_refl _)
  rw [pyLower_append, pyLower_append, pyLower_append]
  exact pyContains_append_left _ _ _ (pyContains_append_left _ _ _ (pyContains_append_left _ _ _ h1))

/-- C9: `optimize_sql_query` is bounded and idempotent. On input without
" limit " (case-insensitively) it appends `LIMIT s OFFSET o` with `s` the
page size clamped into [1, 200] and `o = (max 1 page - 1) * s`; on input with
" limit " it is the identity; and a second application with any arguments
changes nothing. -/
theorem optimize_sql_query_bounded_idempotent (sql : String) (page page_size : Int) :
    (pyContains (pyLower sql) " limit " = false →
      ∃ s o : Int,
        optimize_sql_query sql page page_size =
          sql ++ " LIMIT " ++ toString s ++ " OFFSET " ++ toString o ∧
        1 ≤ s ∧ s ≤ 200 ∧
        (page_size < 1 → s = 1) ∧
        (1 ≤ page_size → page_size ≤ 200 → s = page_size) ∧
        (200 < page_size → s = 200) ∧
        o = (max 1 page - 1) * s) ∧
    (pyContains (pyLower sql) " limit " = true →
      optimize_sql_query sql page page_size = sql) ∧
    (∀ p2 ps2 : Int,
      optimize_sql_query (optimize_sql_query sql page page_size) p2 ps2 =
        optimize_sql_query sql page page_size) := by
  refine ⟨?_, ?_, ?_⟩
  · intro h
    refine ⟨max 1 (min 200 page_size), (max 1 page - 1) * max 1 (min 200 page_size),
      ?_, ?_, ?_, ?_, ?_, ?_, rfl⟩
    · simp only [optimize_sql_query, h]
      simp
    all_goals omega
  · intro h
    simp only [optimize_sql_query, h]
    simp
  · intro p2 ps2
    by_cases h : pyContains (pyLower sql) " limit " = true
    · simp only [optimize_sql_query, h]
      simp [h]
    · have h' : pyContains (pyLower sql) " limit " = false := by
        simpa using h
      have hres : optimize_sql_query sql page page_size =
          sql ++ " LIMIT " ++ toString (max 1 (min 200 page_size)) ++ " OFFSET " ++
            toString ((max 1 page - 1) * max 1 (min 200 page_size)) := by
        simp only [optimize_sql_query, h']
        simp
      rw [hres]
      simp only [optimize_sql_query, appended_has_limit]
      simp

/-- Witness for C9 at a concrete input. -/
theorem optimize_sql_query_bounded_idempotent_witness :
    optimize_sql_query "SELECT * FROM t" 3 1000 = "SELECT * FROM t LIMIT 200 OFFSET 400" ∧
    optimize_sql_query (optimize_sql_query "SELECT * FROM t" 3 1000) 1 50 =
      optimize_sql_query "SELECT * FROM t" 3 1000 := by
  constructor
  · obtain ⟨s, o, heq, _, _, _, _, h200, ho⟩ :=
      (optimize_sql_query_bounded_idempotent "SELECT * FROM t" 3 1000).1 (by decide)
    have hs : s = 200 := h200 (by decide)
    subst hs
    rw [heq, ho]
    decide
  · exact (optimize_sql_query_bounded_idempotent "SELECT * FROM t" 3 1000).2.2 1 50

/-- C4: whenever the lowercased query contains "how many", or contains both
"count" and "employees", and `_run_sql_query` reaches statement construction
successfully, the statement is `SELECT COUNT(*) as count FROM <main table>`
passed through `optimize_sql_query`, with an empty params dict — regardless
of whether the average-salary, hire-date or generic-branch conditions also
hold, since the COUNT branch is tested first. -/
theorem count_branch_first (schema : DbSchema) (q : String) (page page_size : Int)
    (sql : String) (params : List (String × String)) (cols : List String)
    (hc : count_cond (pyLower q) = true)
    (h : buildSqlParams schema q page page_size = Except.ok (sql, params, cols)) :
    ∃ tbl, mainTable schema = some tbl ∧
      sql = optimize_sql_query ("SELECT COUNT(*) as count FROM " ++ tbl) page page_size ∧
      params = [] := by
  unfold buildSqlParams at h
  cases hmt : mainTable schema with
  | none => rw [hmt] at h; exact absurd h (by simp)
  | some tbl =>
    rw [hmt] at h
    dsimp only at h
    refine ⟨tbl, rfl, ?_⟩
    cases hti : dictGet tbl schema.tables with
    | none => rw [hti] at h; exact absurd h (by simp)
    | some tinfo =>
      rw [hti] at h
      dsimp only at h
      cases hnc : nameColOf ((dictGet tbl schema.columnMaps).getD emptyHints)
          (tinfo.columns.map ColumnInfo.name) with
      | error e =>
        rw [hnc] at h; exact absurd h (by simp)
      | ok name_col =>
        rw [hnc] at h
        dsimp only at h
        simp only [hc, if_true] at h
        have := h
        simp only [Except.ok.injEq, Prod.mk.injEq] at this
        exact ⟨this.1.symm, this.2.1.symm⟩

/-- Witness for C4: a query that satisfies both the COUNT condition and the
average-salary condition still gets the COUNT template. -/
theorem count_branch_first_witness :
    count_cond (pyLower "How many employees have average salary?") = true ∧
    ∃ tbl, mainTable schemaEx = some tbl ∧
      "SELECT COUNT(*) as count FROM employees LIMIT 50 OFFSET 0" =
        optimize_sql_query ("SELECT COUNT(*) as count FROM " ++ tbl) 1 50 ∧
      ([] : List (String × String)) = [] := by
  refine ⟨by decide, ?_⟩
  exact count_branch_first schemaEx "How many employees have average salary?" 1 50
    "SELECT COUNT(*) as count FROM employees LIMIT 50 OFFSET 0" [] ["emp_name", "dept", "salary"]
    (by decide) (by decide)

lemma renderAtoms_append (xs ys : List SqlAtom) :
    renderAtoms (xs ++ ys) = renderAtoms xs ++ renderAtoms ys := by
  induction xs with
  | nil => simp [renderAtoms, String.empty_append]
  | cons a rest ih => simp [renderAtoms, ih, String.append_assoc]

lemma Decomp.appendD {n t : List String} {s1 s2 : String}
    (h1 : Decomp n t s1) (h2 : Decomp n t s2) : Decomp n t (s1 ++ s2) := by
  obtain ⟨a1, e1, k1⟩ := h1
  obtain ⟨a2, e2, k2⟩ := h2
  refine ⟨a1 ++ a2, ?_, ?_⟩
  · rw [renderAtoms_append, e1, e2]
  · intro a ha
    rcases List.mem_append.mp ha with h | h
    · exact k1 a h
    · exact k2 a h

lemma decomp_single {n t : List String} (a : SqlAtom) (h : atomOk n t a = true) :
    Decomp n t a.render := by
  refine ⟨[a], ?_, ?_⟩
  · simp [renderAtoms, String.append_empty]
  · intro b hb
    rw [List.mem_singleton] at hb
    subst hb
    exact h

lemma decomp_fixed {n t : List String} (s : String) (h : s ∈ sqlFixedFragments) :
    Decomp n t s :=
  decomp_single (SqlAtom.fixedFrag s) (by simpa [atomOk] using h)

lemma decomp_schemaName {n t : List String} (s : String) (h : s ∈ n) : Decomp n t s :=
  decomp_single (SqlAtom.schemaName s) (by simpa [atomOk] using h)

lemma decomp_holder {n toks : List String} (t : String) (h : t ∈ toks) :
    Decomp n toks (":" ++ t) :=
  decomp_single (SqlAtom.holder t) (by simpa [atomOk] using h)

lemma decomp_holderD {n toks : List String} (t : String) (h : t ∈ toks) :
    Decomp n toks (":" ++ t ++ "_d") :=
  decomp_single (SqlAtom.holderD t) (by simpa [atomOk] using h)

lemma decomp_intLit {n t : List String} (m : Int) : Decomp n t (toString m) :=
  decomp_single (SqlAtom.intLit m) rfl

lemma dictGet_mem {α : Type} (k : String) (l : List (String × α)) (v : α)
    (h : dictGet k l = some v) : (k, v) ∈ l := by
  induction l with
  | nil => cases h
  | cons p rest ih =>
    obtain ⟨k', v'⟩ := p
    by_cases hk : k' = k
    · subst hk
      simp [dictGet] at h
      subst h
      exact List.mem_cons_self _ _
    · simp [dictGet, hk] at h
      exact List.mem_cons_of_mem _ (ih h)

lemma table_mem_schemaStrings (schema : DbSchema) (tbl : String) (ti : TableInfo)
    (h : dictGet tbl schema.tables = some ti) : tbl ∈ schemaStrings schema := by
  have hm := dictGet_mem tbl schema.tables ti h
  simp only [schemaStrings, List.mem_append]
  left; left
  exact List.mem_map.mpr ⟨(tbl, ti), hm, rfl⟩

lemma column_mem_schemaStrings (schema : DbSchema) (tbl : String) (ti : TableInfo)
    (h : dictGet tbl schema.tables = some ti) (c : String)
    (hc : c ∈ ti.columns.map ColumnInfo.name) : c ∈ schemaStrings schema := by
  have hm := dictGet_mem tbl schema.tables ti h
  simp only [schemaStrings, List.mem_append]
  left; right
  exact List.mem_flatten.mpr ⟨ti.columns.map ColumnInfo.name,
    List.mem_map.mpr ⟨(tbl, ti), hm, rfl⟩, hc⟩

lemma hint_mem_schemaStrings (schema : DbSchema) (tbl : String) (h : ColumnHints)
    (hget : dictGet tbl schema.columnMaps = some h) (s : String)
    (hs : s ∈ hintStrings h) : s ∈ schemaStrings schema := by
  have hm := dictGet_mem tbl schema.columnMaps h hget
  simp only [schemaStrings, List.mem_append]
  right
  exact List.mem_flatten.mpr ⟨hintStrings h, List.mem_map.mpr ⟨(tbl, h), hm, rfl⟩, hs⟩

lemma headOrIndexError_ok (l : List String) (c : String)
    (h : headOrIndexError l = Except.ok c) : c ∈ l := by
  cases l with
  | nil => cases h
  | cons x xs =>
    simp [headOrIndexError] at h
    subst h
    exact List.mem_cons_self _ _

/-- The resolved name column is schema-derived: either a truthy `name` hint
or the first column of the main table. -/
lemma nameCol_mem_schemaStrings (schema : DbSchema) (tbl : String) (ti : TableInfo)
    (hti : dictGet tbl schema.tables = some ti) (name_col : String)
    (hnc : nameColOf ((dictGet tbl schema.columnMaps).getD emptyHints)
      (ti.columns.map ColumnInfo.name) = Except.ok name_col) :
    name_col ∈ schemaStrings schema := by
  cases hcm : dictGet tbl schema.columnMaps with
  | none =>
    rw [hcm] at hnc
    simp only [Option.getD, nameColOf, emptyHints] at hnc
    exact column_mem_schemaStrings schema tbl ti hti name_col (headOrIndexError_ok _ _ hnc)
  | some hints =>
    rw [hcm] at hnc
    simp only [Option.getD] at hnc
    unfold nameColOf at hnc
    cases hname : hints.name with
    | none =>
      rw [hname] at hnc
      exact column_mem_schemaStrings schema tbl ti hti name_col (headOrIndexError_ok _ _ hnc)
    | some s =>
      rw [hname] at hnc
      dsimp only at hnc
      by_cases hs : s = ""
      · rw [if_pos hs] at hnc
        exact column_mem_schemaStrings schema tbl ti hti name_col (headOrIndexError_ok _ _ hnc)
      · rw [if_neg hs] at hnc
        cases hnc
        exact hint_mem_schemaStrings schema tbl hints hcm name_col
          (by simp [hintStrings, hname])

lemma dictSet_mem_inv {α : Type} (kv : String × α) (k : String) (v : α)
    (l : List (String × α)) (h : kv ∈ dictSet k v l) : kv = (k, v) ∨ kv ∈ l := by
  induction l with
  | nil =>
    simp [dictSet] at h
    exact Or.inl h
  | cons p rest ih =>
    obtain ⟨k', v'⟩ := p
    by_cases hk : k' = k
    · simp [dictSet, hk] at h
      rcases h with h | h
      · exact Or.inl (by simp [h])
      · exact Or.inr (List.mem_cons_of_mem _ h)
    · simp only [dictSet, if_neg hk, List.mem_cons] at h
      rcases h with h | h
      · exact Or.inr (by simp [h])
      · rcases ih h with h' | h'
        · exact Or.inl h'
        · exact Or.inr (List.mem_cons_of_mem _ h')

/-- Every filter produced by the generic-branch loop is either carried over
from the accumulator or has one of the two LIKE shapes for a token of the
list (the department shape only when the department hint is truthy). -/
lemma genericLoop_filters (n : String) (d : Option String) (toks : List String)
    (fs : List String) (ps : List (String × String)) :
    ∀ f ∈ (genericLoop n d toks fs ps).1,
      f ∈ fs ∨
      (∃ t ∈ toks, f = "LOWER(" ++ n ++ ") LIKE :" ++ t) ∨
      (truthyS d = true ∧ ∃ t ∈ toks, f = "LOWER(" ++ optStr d ++ ") LIKE :" ++ t ++ "_d") := by
  induction toks generalizing fs ps with
  | nil =>
    intro f hf
    exact Or.inl hf
  | cons t ts ih =>
    intro f hf
    simp only [genericLoop] at hf
    by_cases hd : truthyS d = true
    · simp only [hd, if_true] at hf
      rcases ih _ _ f hf with h | h | h
      · rcases List.mem_append.mp h with h' | h'
        · rcases List.mem_append.mp h' with h'' | h''
          · exact Or.inl h''
          · rw [List.mem_singleton] at h''
            exact Or.inr (Or.inl ⟨t, List.mem_cons_self _ _, h''⟩)
        · rw [List.mem_singleton] at h'
          exact Or.inr (Or.inr ⟨hd, t, List.mem_cons_self _ _, h'⟩)
      · obtain ⟨t', ht', he⟩ := h
        exact Or.inr (Or.inl ⟨t', List.mem_cons_of_mem _ ht', he⟩)
      · obtain ⟨hd', t', ht', he⟩ := h
        exact Or.inr (Or.inr ⟨hd', t', List.mem_cons_of_mem _ ht', he⟩)
    · simp only [hd, if_false, Bool.false_eq_true] at hf
      rcases ih _ _ f hf with h | h | h
      · rcases List.mem_append.mp h with h' | h'
        · exact Or.inl h'
        · rw [List.mem_singleton] at h'
          exact Or.inr (Or.inl ⟨t, List.mem_cons_self _ _, h'⟩)
      · obtain ⟨t', ht', he⟩ := h
        exact Or.inr (Or.inl ⟨t', List.mem_cons_of_mem _ ht', he⟩)
      · obtain ⟨hd', _, _, _⟩ := h
        exact absurd hd' hd

/-- Every parameter bound by the generic-branch loop is carried over or binds
a token `t` (or `t_d`) to the wrapped pattern `%t%`. -/
lemma genericLoop_params (n : String) (d : Option String) (toks : List String)
    (fs : List String) (ps : List (String × String)) :
    ∀ kv ∈ (genericLoop n d toks fs ps).2,
      kv ∈ ps ∨
      ∃ t ∈ toks, (kv.1 = t ∨ kv.1 = t ++ "_d") ∧ kv.2 = "%" ++ t ++ "%" := by
  induction toks generalizing fs ps with
  | nil =>
    intro kv hkv
    exact Or.inl hkv
  | cons t ts ih =>
    intro kv hkv
    simp only [genericLoop] at hkv
    by_cases hd : truthyS d = true
    · simp only [hd, if_true] at hkv
      rcases ih _ _ kv hkv with h | h
      · rcases dictSet_mem_inv kv t ("%" ++ t ++ "%") _ h with h' | h'
        · exact Or.inr ⟨t, List.mem_cons_self _ _, Or.inl (by simp [h']), by simp [h']⟩
        · rcases dictSet_mem_inv kv (t ++ "_d") ("%" ++ t ++ "%") _ h' with h'' | h''
          · exact Or.inr ⟨t, List.mem_cons_self _ _, Or.inr (by simp [h'']), by simp [h'']⟩
          · exact Or.inl h''
      · obtain ⟨t', ht', he⟩ := h
        exact Or.inr ⟨t', List.mem_cons_of_mem _ ht', he⟩
    · simp only [hd, if_false, Bool.false_eq_true] at hkv
      rcases ih _ _ kv hkv with h | h
      · rcases dictSet_mem_inv kv t ("%" ++ t ++ "%") _ h with h' | h'
        · exact Or.inr ⟨t, List.mem_cons_self _ _, Or.inl (by simp [h']), by simp [h']⟩
        · exact Or.inl h'
      · obtain ⟨t', ht', he⟩ := h
        exact Or.inr ⟨t', List.mem_cons_of_mem _ ht', he⟩

lemma tokenRunsAux_chars (cs : List Char) :
    ∀ acc : List Char, (∀ c ∈ acc, isTokenChar c = true) →
      ∀ t ∈ tokenRunsAux cs acc, ∀ c ∈ t.data, isTokenChar c = true := by
  induction cs with
  | nil =>
    intro acc hacc t ht c hc
    by_cases he : acc.isEmpty = true
    · simp [tokenRunsAux, he] at ht
    · simp only [tokenRunsAux, he, if_false, Bool.false_eq_true, List.mem_singleton] at ht
      subst ht
      exact hacc c (List.mem_reverse.mp hc)
  | cons c0 rest ih =>
    intro acc hacc t ht c hc
    by_cases h0 : isTokenChar c0 = true
    · simp only [tokenRunsAux, h0, if_true] at ht
      refine ih (c0 :: acc) ?_ t ht c hc
      intro x hx
      rcases List.mem_cons.mp hx with h | h
      · subst h; exact h0
      · exact hacc x h
    · by_cases he : acc.isEmpty = true
      · simp only [tokenRunsAux, h0, he, if_false, if_true, Bool.false_eq_true] at ht
        exact ih [] (by intro x hx; cases hx) t ht c hc
      · simp only [tokenRunsAux, h0, he, if_false, Bool.false_eq_true, List.mem_cons] at ht
        rcases ht with ht | ht
        · subst ht
          exact hacc c (List.mem_reverse.mp hc)
        · exact ih [] (by intro x hx; cases hx) t ht c hc

/-- Every token extracted by the `[a-zA-Z_]+` regex consists only of ASCII
letters and underscores; in particular no quoting or whitespace characters
of the raw query ever reach the SQL text through a placeholder name. -/
lemma filteredTokens_chars (q : String) :
    ∀ t ∈ filteredTokens q, ∀ c ∈ t.data, c.isAlpha = true ∨ c = '_' := by
  intro t ht c hc
  have h1 : t ∈ pyFindTokens q := List.mem_of_mem_filter ht
  have h2 : isTokenChar c = true :=
    tokenRunsAux_chars q.data [] (by intro x hx; cases hx) t h1 c hc
  simpa [isTokenChar, Bool.or_eq_true, beq_iff_eq] using h2

lemma joinOr_decomp {n tk : List String} (fs : List String)
    (h : ∀ f ∈ fs, Decomp n tk f) : Decomp n tk (joinOr fs) := by
  induction fs with
  | nil => exact ⟨[], rfl, by intro a ha; cases ha⟩
  | cons f rest ih =>
    cases rest with
    | nil => simpa [joinOr] using h f (List.mem_singleton_self f)
    | cons g rest' =>
      have he : joinOr (f :: g :: rest') = f ++ " OR " ++ joinOr (g :: rest') := rfl
      rw [he]
      refine Decomp.appendD (Decomp.appendD (h f (List.mem_cons_self _ _)) ?_) ?_
      · exact decomp_fixed " OR " (by simp [sqlFixedFragments])
      · exact ih (fun f' hf' => h f' (List.mem_cons_of_mem _ hf'))

lemma decomp_nameFilter {n tk : List String} (col t : String)
    (hcol : col ∈ n) (ht : t ∈ tk) :
    Decomp n tk ("LOWER(" ++ col ++ ") LIKE :" ++ t) := by
  have he : "LOWER(" ++ col ++ ") LIKE :" ++ t =
      "LOWER(" ++ col ++ ") LIKE " ++ (":" ++ t) := by
    rw [show (") LIKE :" : String) = ") LIKE " ++ ":" from by decide]
    simp only [String.append_assoc]
  rw [he]
  refine Decomp.appendD (Decomp.appendD (Decomp.appendD ?_ ?_) ?_) ?_
  · exact decomp_fixed "LOWER(" (by simp [sqlFixedFragments])
  · exact decomp_schemaName col hcol
  · exact decomp_fixed ") LIKE " (by simp [sqlFixedFragments])
  · exact decomp_holder t ht

lemma decomp_deptFilter {n tk : List String} (col t : String)
    (hcol : col ∈ n) (ht : t ∈ tk) :
    Decomp n tk ("LOWER(" ++ col ++ ") LIKE :" ++ t ++ "_d") := by
  have he : "LOWER(" ++ col ++ ") LIKE :" ++ t ++ "_d" =
      "LOWER(" ++ col ++ ") LIKE " ++ (":" ++ t ++ "_d") := by
    rw [show (") LIKE :" : String) = ") LIKE " ++ ":" from by decide]
    simp only [String.append_assoc]
  rw [he]
  refine Decomp.appendD (Decomp.appendD (Decomp.appendD ?_ ?_) ?_) ?_
  · exact decomp_fixed "LOWER(" (by simp [sqlFixedFragments])
  · exact decomp_schemaName col hcol
  · exact decomp_fixed ") LIKE " (by simp [sqlFixedFragments])
  · exact decomp_holderD t ht

lemma decomp_optimize {n tk : List String} (sql : String) (p ps : Int)
    (h : Decomp n tk sql) : Decomp n tk (optimize_sql_query sql p ps) := by
  unfold optimize_sql_query
  by_cases hc : pyContains (pyLower sql) " limit " = true
  · simpa [hc] using h
  · simp only [hc, if_false, Bool.false_eq_true]
    refine Decomp.appendD (Decomp.appendD (Decomp.appendD (Decomp.appendD h ?_) ?_) ?_) ?_
    · exact decomp_fixed " LIMIT " (by simp [sqlFixedFragments])
    · exact decomp_intLit _
    · exact decomp_fixed " OFFSET " (by simp [sqlFixedFragments])
    · exact decomp_intLit _

lemma salary_hint_mem (h : ColumnHints) (s : String) (hs : h.salary = some s) :
    s ∈ hintStrings h := by
  refine List.mem_filterMap.mpr ⟨some s, ?_, rfl⟩
  simp [hintStrings, hs]

lemma dept_hint_mem (h : ColumnHints) (s : String) (hs : h.department = some s) :
    s ∈ hintStrings h := by
  refine List.mem_filterMap.mpr ⟨some s, ?_, rfl⟩
  simp [hintStrings, hs]

lemma date_hint_mem (h : ColumnHints) (s : String) (hs : h.date = some s) :
    s ∈ hintStrings h := by
  refine List.mem_filterMap.mpr ⟨some s, ?_, rfl⟩
  simp [hintStrings, hs]

/-- A truthy department hint is a schema-derived string. -/
lemma dept_mem_schemaStrings (schema : DbSchema) (tbl : String)
    (ds : String)
    (hdept : ((dictGet tbl schema.columnMaps).getD emptyHints).department = some ds) :
    ds ∈ schemaStrings schema := by
  cases hcm : dictGet tbl schema.columnMaps with
  | none =>
    rw [hcm] at hdept
    simp [emptyHints] at hdept
  | some hh =>
    rw [hcm] at hdept
    exact hint_mem_schemaStrings schema tbl hh hcm ds (dept_hint_mem hh ds hdept)

lemma date_mem_schemaStrings (schema : DbSchema) (tbl : String)
    (ds : String)
    (hdate : ((dictGet tbl schema.columnMaps).getD emptyHints).date = some ds) :
    ds ∈ schemaStrings schema := by
  cases hcm : dictGet tbl schema.columnMaps with
  | none =>
    rw [hcm] at hdate
    simp [emptyHints] at hdate
  | some hh =>
    rw [hcm] at hdate
    exact hint_mem_schemaStrings schema tbl hh hcm ds (date_hint_mem hh ds hdate)

/-- The salary slot of the AVG template is schema-derived text or the fixed
text "None". -/
lemma decomp_salary_slot {tk : List String} (schema : DbSchema) (tbl : String) :
    Decomp (schemaStrings schema) tk
      (optStr ((dictGet tbl schema.columnMaps).getD emptyHints).salary) := by
  cases hcm : dictGet tbl schema.columnMaps with
  | none =>
    simp only [hcm, Option.getD, emptyHints]
    exact decomp_fixed "None" (by simp [sqlFixedFragments])
  | some hh =>
    simp only [hcm, Option.getD]
    cases hs : hh.salary with
    | none => exact decomp_fixed "None" (by simp [sqlFixedFragments])
    | some ss =>
      exact decomp_schemaName ss
        (hint_mem_schemaStrings schema tbl hh hcm ss (salary_hint_mem hh ss hs))

/-- C1 (amended): every statement that `_run_sql_query` builds is
parametrized: the params dict binds each user token `t` only under the keys
`t` or `t_d` and always to the wrapped value `%t%`, so user-supplied text
reaches the database as bound parameter values; the SQL text itself is a
concatenation of fixed template fragments, schema-derived table/column
names, integer pagination literals, and ':'-prefixed bind-parameter names
formed from the query's `[a-zA-Z_]+` tokens — those placeholder names being
the only user-derived text in the statement, made of letters and
underscores only. -/
theorem run_sql_statement_parametrized (schema : DbSchema) (q : String)
    (page page_size : Int) (sql : String) (params : List (String × String))
    (cols : List String)
    (h : buildSqlParams schema q page page_size = Except.ok (sql, params, cols)) :
    Decomp (schemaStrings schema) (filteredTokens (pyLower q)) sql ∧
    (∀ kv ∈ params, ∃ t ∈ filteredTokens (pyLower q),
      (kv.1 = t ∨ kv.1 = t ++ "_d") ∧ kv.2 = "%" ++ t ++ "%") ∧
    (∀ t ∈ filteredTokens (pyLower q), ∀ c ∈ t.data, c.isAlpha = true ∨ c = '_') := by
  unfold buildSqlParams at h
  cases hmt : mainTable schema with
  | none => rw [hmt] at h; exact absurd h (by simp)
  | some tbl =>
    rw [hmt] at h
    dsimp only at h
    cases hti : dictGet tbl schema.tables with
    | none => rw [hti] at h; exact absurd h (by simp)
    | some tinfo =>
      rw [hti] at h
      dsimp only at h
      cases hnc : nameColOf ((dictGet tbl schema.columnMaps).getD emptyHints)
          (tinfo.columns.map ColumnInfo.name) with
      | error e => rw [hnc] at h; exact absurd h (by simp)
      | ok name_col =>
        rw [hnc] at h
        dsimp only at h
        have htbl : tbl ∈ schemaStrings schema := table_mem_schemaStrings schema tbl tinfo hti
        have hnameCol : name_col ∈ schemaStrings schema :=
          nameCol_mem_schemaStrings schema tbl tinfo hti name_col hnc
        by_cases hcount : count_cond (pyLower q) = true
        · simp only [hcount, if_true] at h
          simp only [Except.ok.injEq, Prod.mk.injEq] at h
          obtain ⟨h1, h2, _⟩ := h
          subst h1; subst h2
          refine ⟨decomp_optimize _ _ _ ?_, ?_, filteredTokens_chars (pyLower q)⟩
          · exact Decomp.appendD
              (decomp_fixed "SELECT COUNT(*) as count FROM " (by simp [sqlFixedFragments]))
              (decomp_schemaName tbl htbl)
          · intro kv hkv; cases hkv
        · rw [Bool.not_eq_true] at hcount
          simp only [hcount, Bool.false_eq_true, if_false] at h
          by_cases havg : avg_cond (pyLower q)
              ((dictGet tbl schema.columnMaps).getD emptyHints).department = true
          · simp only [havg, if_true] at h
            simp only [Except.ok.injEq, Prod.mk.injEq] at h
            obtain ⟨h1, h2, _⟩ := h
            subst h1; subst h2
            have hdept : truthyS ((dictGet tbl schema.columnMaps).getD emptyHints).department
                = true := by
              simp only [avg_cond, Bool.and_eq_true] at havg
              exact havg.2
            cases hdo : ((dictGet tbl schema.columnMaps).getD emptyHints).department with
            | none => rw [hdo] at hdept; cases hdept
            | some ds =>
              have hds : ds ∈ schemaStrings schema := dept_mem_schemaStrings schema tbl ds hdo
              refine ⟨decomp_optimize _ _ _ ?_, ?_, filteredTokens_chars (pyLower q)⟩
              · rw [show optStr (some ds) = ds from rfl]
                refine Decomp.appendD (Decomp.appendD (Decomp.appendD (Decomp.appendD
                  (Decomp.appendD (Decomp.appendD (Decomp.appendD (Decomp.appendD
                    ?_ ?_) ?_) ?_) ?_) ?_) ?_) ?_) ?_
                · exact decomp_fixed "SELECT " (by simp [sqlFixedFragments])
                · exact decomp_schemaName ds hds
                · exact decomp_fixed " as department, AVG(" (by simp [sqlFixedFragments])
                · exact decomp_salary_slot schema tbl
                · exact decomp_fixed ") as average_salary FROM " (by simp [sqlFixedFragments])
                · exact decomp_schemaName tbl htbl
                · exact decomp_fixed " GROUP BY " (by simp [sqlFixedFragments])
                · exact decomp_schemaName ds hds
                · exact decomp_fixed " ORDER BY average_salary DESC" (by simp [sqlFixedFragments])
              · intro kv hkv; cases hkv
          · rw [Bool.not_eq_true] at havg
            simp only [havg, Bool.false_eq_true, if_false] at h
            by_cases hhire : hire_cond (pyLower q) = true
            · simp only [hhire, if_true] at h
              by_cases hdt : truthyS ((dictGet tbl schema.columnMaps).getD emptyHints).date = true
              · simp only [hdt, if_true] at h
                simp only [Except.ok.injEq, Prod.mk.injEq] at h
                obtain ⟨h1, h2, _⟩ := h
                subst h1; subst h2
                cases hdo : ((dictGet tbl schema.columnMaps).getD emptyHints).date with
                | none => rw [hdo] at hdt; cases hdt
                | some dd =>
                  have hdd : dd ∈ schemaStrings schema := date_mem_schemaStrings schema tbl dd hdo
                  refine ⟨decomp_optimize _ _ _ ?_, ?_, filteredTokens_chars (pyLower q)⟩
                  · rw [show optStr (some dd) = dd from rfl]
                    refine Decomp.appendD (Decomp.appendD (Decomp.appendD (Decomp.appendD
                      (Decomp.appendD (Decomp.appendD ?_ ?_) ?_) ?_) ?_) ?_) ?_
                    · exact decomp_fixed "SELECT * FROM " (by simp [sqlFixedFragments])
                    · exact decomp_schemaName tbl htbl
                    · exact decomp_fixed " WHERE strftime('%Y', " (by simp [sqlFixedFragments])
                    · exact decomp_schemaName dd hdd
                    · exact decomp_fixed ") = strftime('%Y','now') ORDER BY "
                        (by simp [sqlFixedFragments])
                    · exact decomp_schemaName dd hdd
                    · exact decomp_fixed " DESC" (by simp [sqlFixedFragments])
                  · intro kv hkv; cases hkv
              · rw [Bool.not_eq_true] at hdt
                simp only [hdt, Bool.false_eq_true, if_false] at h
                simp only [Except.ok.injEq, Prod.mk.injEq] at h
                obtain ⟨h1, h2, _⟩ := h
                subst h1; subst h2
                refine ⟨decomp_optimize _ _ _ ?_, ?_, filteredTokens_chars (pyLower q)⟩
                · refine Decomp.appendD (Decomp.appendD ?_ ?_) ?_
                  · exact decomp_fixed "SELECT * FROM " (by simp [sqlFixedFragments])
                  · exact decomp_schemaName tbl htbl
                  · exact decomp_fixed " LIMIT 100" (by simp [sqlFixedFragments])
                · intro kv hkv; cases hkv
            · rw [Bool.not_eq_true] at hhire
              simp only [hhire, Bool.false_eq_true, if_false] at h
              cases hgl : genericLoop name_col
                  ((dictGet tbl schema.columnMaps).getD emptyHints).department
                  (filteredTokens (pyLower q)) [] [] with
              | mk lf psl =>
                rw [hgl] at h
                dsimp only at h
                have hfd : ∀ f ∈ lf,
                    Decomp (schemaStrings schema) (filteredTokens (pyLower q)) f := by
                  intro f hf
                  have hmem := genericLoop_filters name_col
                    ((dictGet tbl schema.columnMaps).getD emptyHints).department
                    (filteredTokens (pyLower q)) [] [] f (by rw [hgl]; exact hf)
                  rcases hmem with h0 | hname | hdeptf
                  · cases h0
                  · obtain ⟨t, ht, he⟩ := hname
                    rw [he]
                    exact decomp_nameFilter name_col t hnameCol ht
                  · obtain ⟨htr, t, ht, he⟩ := hdeptf
                    cases hdo : ((dictGet tbl schema.columnMaps).getD emptyHints).department with
                    | none => rw [hdo] at htr; cases htr
                    | some ds =>
                      rw [he, hdo]
                      rw [show optStr (some ds) = ds from rfl]
                      exact decomp_deptFilter ds t
                        (dept_mem_schemaStrings schema tbl ds hdo) ht
                have hpd : ∀ kv ∈ psl, ∃ t ∈ filteredTokens (pyLower q),
                    (kv.1 = t ∨ kv.1 = t ++ "_d") ∧ kv.2 = "%" ++ t ++ "%" := by
                  intro kv hkv
                  have hmem := genericLoop_params name_col
                    ((dictGet tbl schema.columnMaps).getD emptyHints).department
                    (filteredTokens (pyLower q)) [] [] kv (by rw [hgl]; exact hkv)
                  rcases hmem with h0 | h1
                  · cases h0
                  · exact h1
                by_cases hemp : lf.isEmpty = true
                · simp only [hemp, if_true] at h
                  simp only [Except.ok.injEq, Prod.mk.injEq] at h
                  obtain ⟨h1, h2, _⟩ := h
                  subst h1; subst h2
                  refine ⟨decomp_optimize _ _ _ ?_, hpd, filteredTokens_chars (pyLower q)⟩
                  exact Decomp.appendD
                    (decomp_fixed "SELECT * FROM " (by simp [sqlFixedFragments]))
                    (decomp_schemaName tbl htbl)
                · simp only [hemp, Bool.false_eq_true, if_false] at h
                  simp only [Except.ok.injEq, Prod.mk.injEq] at h
                  obtain ⟨h1, h2, _⟩ := h
                  subst h1; subst h2
                  refine ⟨decomp_optimize _ _ _ ?_, hpd, filteredTokens_chars (pyLower q)⟩
                  refine Decomp.appendD (Decomp.appendD (Decomp.appendD ?_ ?_) ?_) ?_
                  · exact decomp_fixed "SELECT * FROM " (by simp [sqlFixedFragments])
                  · exact decomp_schemaName tbl htbl
                  · exact decomp_fixed " WHERE " (by simp [sqlFixedFragments])
                  · exact joinOr_decomp lf hfd

/-- Witness for C1 (amended) at a concrete schema and query. -/
theorem run_sql_statement_parametrized_witness :
    Decomp (schemaStrings schemaEx) (filteredTokens (pyLower "zzqq"))
      "SELECT * FROM employees WHERE LOWER(emp_name) LIKE :zzqq OR LOWER(dept) LIKE :zzqq_d LIMIT 50 OFFSET 0" ∧
    (∀ kv ∈ [("zzqq_d", "%zzqq%"), ("zzqq", "%zzqq%")], ∃ t ∈ filteredTokens (pyLower "zzqq"),
      (kv.1 = t ∨ kv.1 = t ++ "_d") ∧ kv.2 = "%" ++ t ++ "%") ∧
    (∀ t ∈ filteredTokens (pyLower "zzqq"), ∀ c ∈ t.data, c.isAlpha = true ∨ c = '_') :=
  run_sql_statement_parametrized schemaEx "zzqq" 1 50
    "SELECT * FROM employees WHERE LOWER(emp_name) LIKE :zzqq OR LOWER(dept) LIKE :zzqq_d LIMIT 50 OFFSET 0"
    [("zzqq_d", "%zzqq%"), ("zzqq", "%zzqq%")] ["emp_name", "dept", "salary"] (by decide)

/-- C1 counterexample: the claim "user-supplied text ... is never spliced
into the SQL string itself (only schema-derived table and column names are
interpolated into the text)" is false as stated. For the query "zzqq" on a
concrete schema, the user token "zzqq" occurs verbatim in the built SQL
text (as the bind-parameter names `:zzqq` and `:zzqq_d`) even though it is
not contained in any schema-derived string. -/
theorem user_token_spliced_into_sql_text :
    buildSqlParams schemaEx "zzqq" 1 50 =
      Except.ok ("SELECT * FROM employees WHERE LOWER(emp_name) LIKE :zzqq OR LOWER(dept) LIKE :zzqq_d LIMIT 50 OFFSET 0",
        [("zzqq_d", "%zzqq%"), ("zzqq", "%zzqq%")], ["emp_name", "dept", "salary"]) ∧
    pyContains "SELECT * FROM employees WHERE LOWER(emp_name) LIKE :zzqq OR LOWER(dept) LIKE :zzqq_d LIMIT 50 OFFSET 0" "zzqq" = true ∧
    (schemaStrings schemaEx).all noZzqq = true := by
  decide

example : best_match_from_list (fun _ _ => 0) ["name"] ["Name", "NAME"] = some "NAME" := by decide

example : best_match_from_list (fun _ _ => 0) ["dept"] ["x", "y"] = none := by decide

example : best_match_from_list (fun _ _ => 80) ["dept"] ["Division"] = some "Division" := by decide

lemma dictGet_dictSet {α : Type} (k k' : String) (v : α) (l : List (String × α)) :
    dictGet k (dictSet k' v l) = if k' = k then some v else dictGet k l := by
  induction l with
  | nil => simp [dictGet, dictSet]
  | cons p rest ih =>
    obtain ⟨pk, pv⟩ := p
    by_cases hp : pk = k'
    · subst hp
      simp only [dictSet, if_pos rfl]
      by_cases hk : pk = k
      · simp [dictGet, hk]
      · simp [dictGet, hk]
    · simp only [dictSet, if_neg hp, dictGet]
      by_cases hk : pk = k
      · subst hk
        simp only [if_pos rfl]
        have : ¬ k' = pk := fun he => hp he.symm
        simp [this]
      · simp [hk, ih]

lemma buildCandsLowerAux_mem (cs : List String) :
    ∀ acc : List (String × String), ∀ kv ∈ buildCandsLowerAux acc cs,
      kv ∈ acc ∨ (kv.2 ∈ cs ∧ pyLower kv.2 = kv.1) := by
  induction cs with
  | nil => intro acc kv hkv; exact Or.inl hkv
  | cons c rest ih =>
    intro acc kv hkv
    rcases ih _ kv hkv with h | h
    · rcases dictSet_mem_inv kv (pyLower c) c acc h with h' | h'
      · exact Or.inr ⟨by simp [h'], by simp [h']⟩
      · exact Or.inl h'
    · exact Or.inr ⟨List.mem_cons_of_mem _ h.1, h.2⟩

/-- The dict built by the comprehension maps each lowercased key to the
last candidate (in iteration order) with that lowercasing. -/
lemma dictGet_buildCandsLowerAux (cs : List String) :
    ∀ (acc : List (String × String)) (k : String),
      dictGet k (buildCandsLowerAux acc cs) =
        match cs.reverse.find? (fun c => pyLower c == k) with
        | some v => some v
        | none => dictGet k acc := by
  induction cs with
  | nil => intro acc k; simp [buildCandsLowerAux]
  | cons c rest ih =>
    intro acc k
    have hrev : (c :: rest).reverse = rest.reverse ++ [c] := by simp
    rw [hrev, List.find?_append]
    simp only [buildCandsLowerAux, ih]
    cases hf : rest.reverse.find? (fun c => pyLower c == k) with
    | some v => simp [Option.or]
    | none =>
      simp only [Option.or]
      by_cases hk : pyLower c = k
      · simp [List.find?, hk, dictGet_dictSet]
      · have : (pyLower c == k) = false := by simp [hk]
        simp [List.find?, this, dictGet_dictSet, hk]

lemma keys_nodup_dictSet {α : Type} (k : String) (v : α) (l : List (String × α))
    (h : (l.map Prod.fst).Nodup) : ((dictSet k v l).map Prod.fst).Nodup := by
  induction l with
  | nil => simp [dictSet]
  | cons p rest ih =>
    obtain ⟨pk, pv⟩ := p
    by_cases hp : pk = k
    · subst hp
      simpa [dictSet] using h
    · simp only [dictSet, if_neg hp, List.map_cons, List.nodup_cons] at h ⊢
      constructor
      · intro hmem
        rcases List.mem_map.mp hmem with ⟨kv, hkv, hfst⟩
        rcases dictSet_mem_inv kv k v rest hkv with h' | h'
        · exact hp (by rw [← hfst, h'])
        · exact h.1 (List.mem_map.mpr ⟨kv, h', hfst⟩)
      · exact ih h.2

lemma keys_nodup_buildCandsLowerAux (cs : List String) :
    ∀ acc : List (String × String), (acc.map Prod.fst).Nodup →
      ((buildCandsLowerAux acc cs).map Prod.fst).Nodup := by
  induction cs with
  | nil => intro acc h; exact h
  | cons c rest ih =>
    intro acc h
    exact ih _ (keys_nodup_dictSet (pyLower c) c acc h)

lemma dictGet_of_mem_nodup {α : Type} (k : String) (v : α) (l : List (String × α))
    (hmem : (k, v) ∈ l) (hnd : (l.map Prod.fst).Nodup) : dictGet k l = some v := by
  induction l with
  | nil => cases hmem
  | cons p rest ih =>
    obtain ⟨pk, pv⟩ := p
    simp only [List.map_cons, List.nodup_cons] at hnd
    rcases List.mem_cons.mp hmem with h | h
    · rw [Prod.mk.injEq] at h
      obtain ⟨h1, h2⟩ := h
      subst h1; subst h2
      simp [dictGet]
    · by_cases hk : pk = k
      · subst hk
        exact absurd (List.mem_map.mpr ⟨(pk, v), h, rfl⟩) hnd.1
      · simp only [dictGet, if_neg hk]
        exact ih h hnd.2

lemma findInCands_some (syn : String) (l : List (String × String)) (orig : String)
    (h : findInCands syn l = some orig) :
    ∃ k, (k, orig) ∈ l ∧ pyContains k syn = true := by
  induction l with
  | nil => cases h
  | cons p rest ih =>
    obtain ⟨cl, o⟩ := p
    by_cases hc : pyContains cl syn = true
    · simp only [findInCands, hc, if_true, Option.some.injEq] at h
      subst h
      exact ⟨cl, List.mem_cons_self _ _, hc⟩
    · rw [Bool.not_eq_true] at hc
      simp only [findInCands, hc, Bool.false_eq_true, if_false] at h
      obtain ⟨k, hk, hks⟩ := ih h
      exact ⟨k, List.mem_cons_of_mem _ hk, hks⟩

lemma findInCands_isSome (syn : String) (l : List (String × String))
    (h : ∃ kv ∈ l, pyContains kv.1 syn = true) :
    ∃ orig, findInCands syn l = some orig := by
  induction l with
  | nil =>
    obtain ⟨kv, hkv, _⟩ := h
    cases hkv
  | cons p rest ih =>
    obtain ⟨cl, o⟩ := p
    by_cases hc : pyContains cl syn = true
    · exact ⟨o, by simp [findInCands, hc]⟩
    · rw [Bool.not_eq_true] at hc
      obtain ⟨kv, hkv, hs⟩ := h
      rcases List.mem_cons.mp hkv with h' | h'
      · rw [h'] at hs
        rw [hs] at hc
        cases hc
      · obtain ⟨orig, ho⟩ := ih ⟨kv, h', hs⟩
        exact ⟨orig, by simp [findInCands, hc, ho]⟩

lemma firstContains_some (synonyms : List String) (l : List (String × String))
    (orig : String) (h : firstContains synonyms l = some orig) :
    ∃ syn ∈ synonyms, ∃ k, (k, orig) ∈ l ∧ pyContains k syn = true := by
  induction synonyms with
  | nil => cases h
  | cons syn rest ih =>
    cases hf : findInCands syn l with
    | some o =>
      simp only [firstContains, hf, Option.some.injEq] at h
      subst h
      obtain ⟨k, hk, hks⟩ := findInCands_some syn l o hf
      exact ⟨syn, List.mem_cons_self _ _, k, hk, hks⟩
    | none =>
      simp only [firstContains, hf] at h
      obtain ⟨s, hs, k, hk, hks⟩ := ih h
      exact ⟨s, List.mem_cons_of_mem _ hs, k, hk, hks⟩

lemma firstContains_isSome (synonyms : List String) (l : List (String × String))
    (h : ∃ syn ∈ synonyms, ∃ kv ∈ l, pyContains kv.1 syn = true) :
    ∃ orig, firstContains synonyms l = some orig := by
  induction synonyms with
  | nil =>
    obtain ⟨syn, hs, _⟩ := h
    cases hs
  | cons syn rest ih =>
    cases hf : findInCands syn l with
    | some o => exact ⟨o, by simp [firstContains, hf]⟩
    | none =>
      obtain ⟨s, hs, kv, hkv, hc⟩ := h
      rcases List.mem_cons.mp hs with h' | h'
      · subst h'
        obtain ⟨o, ho⟩ := findInCands_isSome s l ⟨kv, hkv, hc⟩
        rw [ho] at hf
        cases hf
      · obtain ⟨o, ho⟩ := ih ⟨s, h', kv, hkv, hc⟩
        exact ⟨o, by simp [firstContains, hf, ho]⟩

lemma extractOne_some (score : String → String → Nat) (token : String)
    (l : List String) (m : String) (s : Nat)
    (h : extractOne score token l = some (m, s)) : m ∈ l ∧ s = score token m := by
  induction l generalizing m s with
  | nil => cases h
  | cons c rest ih =>
    cases he : extractOne score token rest with
    | none =>
      simp only [extractOne, he, Option.some.injEq, Prod.mk.injEq] at h
      obtain ⟨h1, h2⟩ := h
      subst h1
      exact ⟨List.mem_cons_self _ _, h2.symm⟩
    | some bs =>
      obtain ⟨b, sb⟩ := bs
      simp only [extractOne, he] at h
      by_cases hge : score token c ≥ sb
      · simp only [hge, if_true, Option.some.injEq, Prod.mk.injEq] at h
        obtain ⟨h1, h2⟩ := h
        subst h1
        exact ⟨List.mem_cons_self _ _, h2.symm⟩
      · simp only [hge, if_false, Option.some.injEq, Prod.mk.injEq] at h
        obtain ⟨h1, h2⟩ := h
        obtain ⟨hb, hsb⟩ := ih b sb he
        subst h1
        subst h2
        exact ⟨List.mem_cons_of_mem _ hb, hsb⟩

lemma best_match_some (score : String → String → Nat) (token : String)
    (candidates : List String) (m : String)
    (h : best_match score token candidates = some m) :
    m ∈ candidates ∧ 75 ≤ score token m := by
  unfold best_match at h
  by_cases hemp : candidates.isEmpty = true
  · simp [hemp] at h
  · rw [Bool.not_eq_true] at hemp
    simp only [hemp, Bool.false_eq_true, if_false] at h
    cases he : extractOne score token candidates with
    | none => rw [he] at h; cases h
    | some ms =>
      obtain ⟨m', s⟩ := ms
      rw [he] at h
      by_cases hs : s ≥ 75
      · simp only [hs, if_true, Option.some.injEq] at h
        subst h
        obtain ⟨hm, hsc⟩ := extractOne_some score token candidates m' s he
        exact ⟨hm, hsc ▸ hs⟩
      · simp only [hs, if_false] at h
        cases h

lemma firstContains_nil (synonyms : List String) : firstContains synonyms [] = none := by
  induction synonyms with
  | nil => rfl
  | cons s rest ih => simp [firstContains, findInCands, ih]

/-- C5 (amended): `best_match_from_list` returns `None` on an empty
candidate list; whenever some candidate's lowercased name contains some
synonym it returns a candidate whose lowercased name contains a synonym,
scanning synonyms in list order — but among candidates sharing a lowercased
name it returns the original spelling of the last such candidate, not the
first; any returned candidate is the last spelling of its lowercased name;
and a returned candidate either contains a synonym or was found by the
fuzzy fallback with score at least 75. -/
theorem best_match_from_list_spec (score : String → String → Nat)
    (synonyms candidates : List String) :
    (candidates = [] → best_match_from_list score synonyms candidates = none) ∧
    (∀ c, best_match_from_list score synonyms candidates = some c →
      c ∈ candidates ∧
      candidates.reverse.find? (fun x => pyLower x == pyLower c) = some c) ∧
    ((∃ cand ∈ candidates, ∃ syn ∈ synonyms, pyContains (pyLower cand) syn = true) →
      ∃ c, best_match_from_list score synonyms candidates = some c ∧
        ∃ syn ∈ synonyms, pyContains (pyLower c) syn = true) ∧
    (∀ c, best_match_from_list score synonyms candidates = some c →
      (∃ syn ∈ synonyms, pyContains (pyLower c) syn = true) ∨
      75 ≤ score (joinSpace synonyms) (pyLower c)) := by
  have hP1 : ∀ kv ∈ buildCandsLower candidates, kv.2 ∈ candidates ∧ pyLower kv.2 = kv.1 := by
    intro kv hkv
    rcases buildCandsLowerAux_mem candidates [] kv hkv with h | h
    · cases h
    · exact h
  have hnd : ((buildCandsLower candidates).map Prod.fst).Nodup :=
    keys_nodup_buildCandsLowerAux candidates [] (by simp)
  have hget : ∀ k, dictGet k (buildCandsLower candidates) =
      candidates.reverse.find? (fun c => pyLower c == k) := by
    intro k
    rw [show buildCandsLower candidates = buildCandsLowerAux [] candidates from rfl,
        dictGet_buildCandsLowerAux]
    cases candidates.reverse.find? (fun c => pyLower c == k) <;> simp [dictGet]
  have hmem_some : ∀ c, best_match_from_list score synonyms candidates = some c →
      ∃ k, (k, c) ∈ buildCandsLower candidates := by
    intro c hc
    simp only [best_match_from_list] at hc
    cases hfc : firstContains synonyms (buildCandsLower candidates) with
    | some o =>
      rw [hfc] at hc
      obtain ⟨syn', hsyn', k', hk', hcont'⟩ := firstContains_some synonyms _ o hfc
      cases hc
      exact ⟨k', hk'⟩
    | none =>
      rw [hfc] at hc
      cases hbm : best_match score (joinSpace synonyms)
          ((buildCandsLower candidates).map Prod.fst) with
      | none => rw [hbm] at hc; cases hc
      | some bm =>
        rw [hbm] at hc
        dsimp only at hc
        by_cases hbe : bm = ""
        · rw [if_pos hbe] at hc; cases hc
        · rw [if_neg hbe] at hc
          exact ⟨bm, dictGet_mem bm _ c hc⟩
  refine ⟨?_, ?_, ?_, ?_⟩
  · intro hnil
    subst hnil
    simp [best_match_from_list, buildCandsLower, buildCandsLowerAux,
      firstContains_nil, best_match]
  · intro c hc
    obtain ⟨k, hk⟩ := hmem_some c hc
    have h1 := hP1 (k, c) hk
    refine ⟨h1.1, ?_⟩
    have h2 : dictGet k (buildCandsLower candidates) = some c :=
      dictGet_of_mem_nodup k c _ hk hnd
    rw [hget k] at h2
    have h12 : pyLower c = k := h1.2
    rw [h12]
    exact h2
  · intro hex
    obtain ⟨cand, hcand, syn, hsyn, hcont⟩ := hex
    have hfind : (candidates.reverse.find? (fun c => pyLower c == pyLower cand)).isSome := by
      rw [List.find?_isSome]
      exact ⟨cand, List.mem_reverse.mpr hcand, by simp⟩
    obtain ⟨v, hv⟩ := Option.isSome_iff_exists.mp hfind
    have hvget : dictGet (pyLower cand) (buildCandsLower candidates) = some v := by
      rw [hget]; exact hv
    have hvmem : (pyLower cand, v) ∈ buildCandsLower candidates := dictGet_mem _ _ _ hvget
    obtain ⟨orig, horig⟩ := firstContains_isSome synonyms _
      ⟨syn, hsyn, (pyLower cand, v), hvmem, hcont⟩
    refine ⟨orig, ?_, ?_⟩
    · simp only [best_match_from_list]
      rw [horig]
    · obtain ⟨syn', hsyn', k', hk', hcont'⟩ := firstContains_some synonyms _ orig horig
      have h1 := hP1 (k', orig) hk'
      refine ⟨syn', hsyn', ?_⟩
      have h12 : pyLower orig = k' := h1.2
      rw [h12]
      exact hcont'
  · intro c hc
    simp only [best_match_from_list] at hc
    cases hfc : firstContains synonyms (buildCandsLower candidates) with
    | some o =>
      rw [hfc] at hc
      cases hc
      obtain ⟨syn', hsyn', k', hk', hcont'⟩ := firstContains_some synonyms _ c hfc
      have h1 := hP1 (k', c) hk'
      left
      refine ⟨syn', hsyn', ?_⟩
      have h12 : pyLower c = k' := h1.2
      rw [h12]
      exact hcont'
    | none =>
      rw [hfc] at hc
      cases hbm : best_match score (joinSpace synonyms)
          ((buildCandsLower candidates).map Prod.fst) with
      | none => rw [hbm] at hc; cases hc
      | some bm =>
        rw [hbm] at hc
        dsimp only at hc
        by_cases hbe : bm = ""
        · rw [if_pos hbe] at hc; cases hc
        · rw [if_neg hbe] at hc
          have hmem := dictGet_mem bm _ c hc
          have h1 := hP1 (bm, c) hmem
          obtain ⟨hbmk, hscore⟩ := best_match_some score _ _ bm hbm
          right
          have h12 : pyLower c = bm := h1.2
          rw [h12]
          exact hscore

/-- Witness for C5 (amended) at concrete inputs. -/
theorem best_match_from_list_spec_witness :
    ∃ c, best_match_from_list zeroScore ["name"] ["Name", "NAME"] = some c ∧
      ∃ syn ∈ ["name"], pyContains (pyLower c) syn = true :=
  (best_match_from_list_spec zeroScore ["name"] ["Name", "NAME"]).2.2.1 (by decide)

/-- C5 counterexample: "returning the first containing candidate" is false
as stated. For synonyms `["name"]` and candidates `["Name", "NAME"]`, both
candidates' lowercased names contain the synonym and the first containing
candidate is "Name", but the dict comprehension `{c.lower(): c for c in
candidates}` keeps the last spelling per lowercased key, so the function
returns "NAME". -/
theorem best_match_from_list_returns_last_spelling :
    best_match_from_list zeroScore ["name"] ["Name", "NAME"] = some "NAME" ∧
    (["Name", "NAME"].filter containsNameSyn).head? = some "Name" ∧
    ("NAME" : String) ≠ "Name" := by decide

/-- Reduction of `process_query` on a cache miss. -/
lemma process_query_miss_eq (env : Env) (st : EngineState) (q : String)
    (page page_size dur_ms ts : Nat)
    (hmiss : dictGet (q ++ "|" ++ toString page ++ "|" ++ toString page_size)
      st.cacheEntries = none) :
    process_query env st q page page_size dur_ms ts =
      (Payload.mk (routeQuery env st.schema q page page_size).1
        (routeQuery env st.schema q page page_size).2.1
        (routeQuery env st.schema q page page_size).2.2
        dur_ms false st.cacheHits (st.cacheMisses + 1),
       EngineState.mk st.schema
        (dictSet (q ++ "|" ++ toString page ++ "|" ++ toString page_size)
          (Payload.mk (routeQuery env st.schema q page page_size).1
            (routeQuery env st.schema q page page_size).2.1
            (routeQuery env st.schema q page page_size).2.2
            dur_ms false st.cacheHits (st.cacheMisses + 1))
          st.cacheEntries)
        st.cacheHits (st.cacheMisses + 1)
        (lastN 50 (st.history ++
          [HistEntry.mk q (routeQuery env st.schema q page page_size).1 ts]))) := by
  unfold process_query cache_get
  dsimp only
  rw [hmiss]

/-- Reduction of `process_query` on a cache hit. -/
lemma process_query_hit_eq (env : Env) (st : EngineState) (q : String)
    (page page_size dur_ms ts : Nat) (v : Payload)
    (hhit : dictGet (q ++ "|" ++ toString page ++ "|" ++ toString page_size)
      st.cacheEntries = some v) :
    process_query env st q page page_size dur_ms ts =
      ({ v with response_time_ms := dur_ms, cache_hit := true },
       EngineState.mk st.schema
        (dictSet (q ++ "|" ++ toString page ++ "|" ++ toString page_size)
          { v with response_time_ms := dur_ms, cache_hit := true } st.cacheEntries)
        (st.cacheHits + 1) st.cacheMisses st.history) := by
  unfold process_query cache_get
  dsimp only
  rw [hhit]

lemma lastN_length_le {α : Type} (n : Nat) (l : List α) : (lastN n l).length ≤ n := by
  simp only [lastN, List.length_drop]
  omega

lemma lastN_append_getLast {α : Type} (n : Nat) (hn : 1 ≤ n) (l : List α) (e : α) :
    (lastN n (l ++ [e])).getLast? = some e := by
  unfold lastN
  have hle : (l ++ [e]).length - n ≤ l.length := by
    simp only [List.length_append, List.length_singleton]
    omega
  rw [List.drop_append_of_le_length hle, List.getLast?_concat]

lemma dictGet_dictSet_self {α : Type} (k : String) (v : α) (l : List (String × α)) :
    dictGet k (dictSet k v l) = some v := by
  rw [dictGet_dictSet]
  simp

/-- C3: on a cache miss `process_query` stores the full response payload
(with `cache.hit = false`) under the key `query|page|page_size`; a second
call with the same query, page and page size — against ANY engine/retriever
environment, which is how "without re-running SQL generation or document
search" is expressed — returns the stored payload, changed only in its
refreshed response time and its `cache.hit` flag now true. -/
theorem process_query_cache_roundtrip (env env2 : Env) (st : EngineState)
    (q : String) (page page_size d1 t1 d2 t2 : Nat)
    (hmiss : dictGet (q ++ "|" ++ toString page ++ "|" ++ toString page_size)
      st.cacheEntries = none) :
    dictGet (q ++ "|" ++ toString page ++ "|" ++ toString page_size)
      (process_query env st q page page_size d1 t1).2.cacheEntries =
      some (process_query env st q page page_size d1 t1).1 ∧
    (process_query env st q page page_size d1 t1).1.cache_hit = false ∧
    (process_query env2 (process_query env st q page page_size d1 t1).2
        q page page_size d2 t2).1 =
      { (process_query env st q page page_size d1 t1).1 with
          response_time_ms := d2, cache_hit := true } := by
  rw [process_query_miss_eq env st q page page_size d1 t1 hmiss]
  refine ⟨?_, rfl, ?_⟩
  · exact dictGet_dictSet_self _ _ _
  · dsimp only
    rw [process_query_hit_eq env2 _ q page page_size d2 t2 _ (dictGet_dictSet_self _ _ _)]

/-- Witness for C3 at concrete inputs. -/
theorem process_query_cache_roundtrip_witness :
    (process_query envEx (process_query envEx stEx "sum" 1 50 5 6).2 "sum" 1 50 7 8).1 =
      { (process_query envEx stEx "sum" 1 50 5 6).1 with
          response_time_ms := 7, cache_hit := true } :=
  (process_query_cache_roundtrip envEx envEx stEx "sum" 1 50 5 6 7 8 (by decide)).2.2

/-- C6: on a cache miss, a query classified "hybrid" whose SQL step
succeeds yields a payload whose results hold the SQL result under the
`table` slot and the document results under the `documents` slot, with the
sources exactly those of the document search; a query classified "sql"
yields an empty sources list. -/
theorem process_query_routing_payload (env : Env) (st : EngineState)
    (q : String) (page page_size d t : Nat)
    (hmiss : dictGet (q ++ "|" ++ toString page ++ "|" ++ toString page_size)
      st.cacheEntries = none) :
    (classify q = "hybrid" →
      ∀ r, run_sql env st.schema q page page_size = Except.ok r →
        (process_query env st q page page_size d t).1.results =
          QResults.hybrid r (search_documents env q page page_size).1 ∧
        (process_query env st q page page_size d t).1.sources =
          (search_documents env q page page_size).2) ∧
    (classify q = "sql" →
      (process_query env st q page page_size d t).1.sources = []) := by
  rw [process_query_miss_eq env st q page page_size d t hmiss]
  constructor
  · intro hcls r hok
    dsimp only
    unfold routeQuery
    rw [hcls, hok]
    have hd : ¬ ("hybrid" : String) = "document" := by decide
    have hs : ¬ ("hybrid" : String) = "sql" := by decide
    rw [if_neg hd, if_neg hs]
    exact ⟨rfl, rfl⟩
  · intro hcls
    dsimp only
    unfold routeQuery
    rw [hcls]
    have hd : ¬ ("sql" : String) = "document" := by decide
    rw [if_neg hd, if_pos rfl]
    cases hrs : run_sql env st.schema q page page_size with
    | ok r => rfl
    | error e => rfl

/-- Witness for C6 at concrete inputs ("show resumes" is hybrid: "resume"
is a document keyword and "show" a SQL keyword). -/
theorem process_query_routing_payload_witness :
    (process_query envEx stEx "show resumes" 1 50 3 4).1.results =
      QResults.hybrid (SqlResult.mk ["emp_name", "dept", "salary"] [] 1 50)
        (search_documents envEx "show resumes" 1 50).1 ∧
    (process_query envEx stEx "show resumes" 1 50 3 4).1.sources =
      (search_documents envEx "show resumes" 1 50).2 :=
  (process_query_routing_payload envEx stEx "show resumes" 1 50 3 4 (by decide)).1
    (by decide) (SqlResult.mk ["emp_name", "dept", "salary"] [] 1 50) (by decide)

/-- When the SQL step fails and the query is not document-classified, the
routed result is the error triple. -/
lemma routeQuery_error (env : Env) (schema : DbSchema) (q : String)
    (page page_size : Nat) (msg : String)
    (hnotdoc : classify q ≠ "document")
    (herr : run_sql env schema q page page_size = Except.error msg) :
    routeQuery env schema q page page_size = ("error", QResults.err msg, []) := by
  unfold routeQuery
  rw [if_neg hnotdoc]
  by_cases hs : classify q = "sql"
  · rw [if_pos hs, herr]
  · rw [if_neg hs, herr]

/-- C8: if SQL statement construction raises (for example the ValueError
when no main table can be determined) and the query is not
document-classified, `process_query` still returns normally with
`query_type = "error"` and results `{"error": <message>}`; that error
payload is stored in the cache under the same key, and an identical
follow-up call (against any environment) is served the cached error payload
with its hit flag set. -/
theorem process_query_error_payload_cached (env env2 : Env) (st : EngineState)
    (q : String) (page page_size d1 t1 d2 t2 : Nat) (msg : String)
    (hmiss : dictGet (q ++ "|" ++ toString page ++ "|" ++ toString page_size)
      st.cacheEntries = none)
    (hnotdoc : classify q ≠ "document")
    (herr : buildSqlParams st.schema q (page : Int) (page_size : Int) = Except.error msg) :
    (process_query env st q page page_size d1 t1).1.query_type = "error" ∧
    (process_query env st q page page_size d1 t1).1.results = QResults.err msg ∧
    dictGet (q ++ "|" ++ toString page ++ "|" ++ toString page_size)
      (process_query env st q page page_size d1 t1).2.cacheEntries =
      some (process_query env st q page page_size d1 t1).1 ∧
    (process_query env2 (process_query env st q page page_size d1 t1).2
        q page page_size d2 t2).1 =
      { (process_query env st q page page_size d1 t1).1 with
          response_time_ms := d2, cache_hit := true } ∧
    (process_query env2 (process_query env st q page page_size d1 t1).2
        q page page_size d2 t2).1.results = QResults.err msg := by
  have hrs : run_sql env st.schema q page page_size = Except.error msg := by
    unfold run_sql
    rw [herr]
  have hroute : routeQuery env st.schema q page page_size = ("error", QResults.err msg, []) :=
    routeQuery_error env st.schema q page page_size msg hnotdoc hrs
  rw [process_query_miss_eq env st q page page_size d1 t1 hmiss]
  refine ⟨?_, ?_, ?_, ?_, ?_⟩
  · dsimp only
    rw [hroute]
  · dsimp only
    rw [hroute]
  · exact dictGet_dictSet_self _ _ _
  · dsimp only
    rw [process_query_hit_eq env2 _ q page page_size d2 t2 _ (dictGet_dictSet_self _ _ _)]
  · dsimp only
    rw [process_query_hit_eq env2 _ q page page_size d2 t2 _ (dictGet_dictSet_self _ _ _)]
    dsimp only
    rw [hroute]

/-- Witness for C8: the empty schema triggers the ValueError path. -/
theorem process_query_error_payload_cached_witness :
    (process_query envEx stErrEx "sum" 1 50 1 2).1.query_type = "error" ∧
    (process_query envEx (process_query envEx stErrEx "sum" 1 50 1 2).2
        "sum" 1 50 3 4).1.results =
      QResults.err "Could not determine main table. Ensure database has an employee-like table." :=
  And.intro
    (process_query_error_payload_cached envEx envEx stErrEx "sum" 1 50 1 2 3 4
      "Could not determine main table. Ensure database has an employee-like table."
      (by decide) (by decide) (by decide)).1
    (process_query_error_payload_cached envEx envEx stErrEx "sum" 1 50 1 2 3 4
      "Could not determine main table. Ensure database has an employee-like table."
      (by decide) (by decide) (by decide)).2.2.2.2

/-- C10: `process_query` keeps the query history bounded by 50 entries; on
a cache miss the appended entry records the query string and the final
query type and is the last history element; a cache hit leaves the history
unchanged. -/
theorem process_query_history_invariant (env : Env) (st : EngineState)
    (q : String) (page page_size d t : Nat)
    (hlen : st.history.length ≤ 50) :
    (process_query env st q page page_size d t).2.history.length ≤ 50 ∧
    (dictGet (q ++ "|" ++ toString page ++ "|" ++ toString page_size)
        st.cacheEntries = none →
      (process_query env st q page page_size d t).2.history.getLast? =
        some (HistEntry.mk q (process_query env st q page page_size d t).1.query_type t)) ∧
    (∀ v, dictGet (q ++ "|" ++ toString page ++ "|" ++ toString page_size)
        st.cacheEntries = some v →
      (process_query env st q page page_size d t).2.history = st.history) := by
  cases hkey : dictGet (q ++ "|" ++ toString page ++ "|" ++ toString page_size)
      st.cacheEntries with
  | none =>
    rw [process_query_miss_eq env st q page page_size d t hkey]
    refine ⟨lastN_length_le 50 _, fun _ => ?_, fun v hv => ?_⟩
    · exact lastN_append_getLast 50 (by omega) _ _
    · exact absurd hv (by simp)
  | some v =>
    rw [process_query_hit_eq env st q page page_size d t v hkey]
    exact ⟨hlen, fun hn => absurd hn (by simp), fun _ _ => rfl⟩

/-- Witness for C10 at concrete inputs. -/
theorem process_query_history_invariant_witness :
    (process_query envEx stEx "sum" 1 50 1 2).2.history.length ≤ 50 ∧
    (process_query envEx stEx "sum" 1 50 1 2).2.history.getLast? =
      some (HistEntry.mk "sum" (process_query envEx stEx "sum" 1 50 1 2).1.query_type 2) :=
  And.intro
    (process_query_history_invariant envEx stEx "sum" 1 50 1 2 (by decide)).1
    ((process_query_history_invariant envEx stEx "sum" 1 50 1 2 (by decide)).2.1 (by decide))

lemma saveLoop_saved (files : List UploadFileM) :
    (saveLoop files).1 = (files.filter (fun f => f.saveError.isNone)).length := by
  induction files with
  | nil => rfl
  | cons f fs ih =>
    cases hf : f.saveError with
    | none => simp [saveLoop, hf, List.filter, ih]
    | some e => simp [saveLoop, hf, List.filter, ih]

lemma saveLoop_total (files : List UploadFileM) :
    (saveLoop files).1 + (saveLoop files).2.length = files.length := by
  induction files with
  | nil => rfl
  | cons f fs ih =>
    cases hf : f.saveError with
    | none =>
      simp only [saveLoop, hf, List.length_cons]
      omega
    | some e =>
      simp only [saveLoop, hf, List.length_cons]
      omega

lemma saveLoop_errors (files : List UploadFileM) :
    ∀ f ∈ files, ∀ e, f.saveError = some e →
      (safeName f.filename ++ ": " ++ e) ∈ (saveLoop files).2 := by
  induction files with
  | nil => intro f hf; cases hf
  | cons g fs ih =>
    intro f hf e he
    rcases List.mem_cons.mp hf with h | h
    · subst h
      simp only [saveLoop, he]
      exact List.mem_cons_self _ _
    · cases hg : g.saveError with
      | none =>
        simp only [saveLoop, hg]
        exact ih f h e he
      | some e' =>
        simp only [saveLoop, hg]
        exact List.mem_cons_of_mem _ (ih f h e he)

lemma dictSet_length_of_absent {α : Type} (k : String) (v : α) (l : List (String × α))
    (h : dictGet k l = none) : (dictSet k v l).length = l.length + 1 := by
  induction l with
  | nil => rfl
  | cons p rest ih =>
    obtain ⟨pk, pv⟩ := p
    by_cases hk : pk = k
    · rw [hk] at h
      simp [dictGet] at h
    · simp only [dictGet, if_neg hk] at h
      simp [dictSet, if_neg hk, ih h]

lemma dictSet_length_of_present {α : Type} (k : String) (v w : α) (l : List (String × α))
    (h : dictGet k l = some w) : (dictSet k v l).length = l.length := by
  induction l with
  | nil => cases h
  | cons p rest ih =>
    obtain ⟨pk, pv⟩ := p
    by_cases hk : pk = k
    · simp [dictSet, hk]
    · simp only [dictGet, if_neg hk] at h
      simp [dictSet, if_neg hk, ih h]

/-- C7: a call to the upload endpoint with at least one file and a fresh
job id (modelling the new uuid4) registers exactly one new job, answers
with that job id and `accepted` equal to the number of files whose save
succeeded, and leaves the job with status "queued", `processed = 0`,
`total = accepted`, and one recorded error line per failed save (so failed
saves are excluded from the count); `ingestion-status` then returns the
job's fields for the known id and HTTP 404 for any unknown id. -/
theorem upload_documents_spec (jobs : List (String × JobInfo)) (newId : String)
    (files : List UploadFileM)
    (hne : files ≠ [])
    (hfresh : dictGet newId jobs = none) :
    ∃ jobs' saved errs,
      upload_documents jobs newId files = Except.ok (jobs', newId, saved) ∧
      saved = (files.filter (fun f => f.saveError.isNone)).length ∧
      dictGet newId jobs' = some (JobInfo.mk "queued" 0 saved errs) ∧
      saved + errs.length = files.length ∧
      (∀ f ∈ files, ∀ e, f.saveError = some e →
        (safeName f.filename ++ ": " ++ e) ∈ errs) ∧
      jobs'.length = jobs.length + 1 ∧
      get_status jobs' newId =
        Except.ok (IngestionStatus.mk newId "queued" 0 saved errs) ∧
      (∀ j, dictGet j jobs' = none → get_status jobs' j = Except.error 404) := by
  have hlen : ¬ files.length = 0 := by
    cases files with
    | nil => exact absurd rfl hne
    | cons f fs => simp
  refine ⟨dictSet newId (JobInfo.mk "queued" 0 (saveLoop files).1 (saveLoop files).2)
      (dictSet newId (JobInfo.mk "queued" 0 files.length []) jobs),
    (saveLoop files).1, (saveLoop files).2, ?_, saveLoop_saved files, ?_,
    saveLoop_total files, saveLoop_errors files, ?_, ?_, ?_⟩
  · unfold upload_documents
    rw [if_neg hlen]
  · exact dictGet_dictSet_self _ _ _
  · rw [dictSet_length_of_present newId _ (JobInfo.mk "queued" 0 files.length []) _
      (dictGet_dictSet_self _ _ _)]
    exact dictSet_length_of_absent newId _ jobs hfresh
  · unfold get_status
    rw [dictGet_dictSet_self]
  · intro j hj
    unfold get_status
    rw [hj]

/-- Witness for C7: two files, one failing to save. -/
theorem upload_documents_spec_witness :
    ∃ jobs' saved errs,
      upload_documents [] "job-1"
        [UploadFileM.mk (some "a.pdf") none,
         UploadFileM.mk (some "b.pdf") (some "disk full")] =
        Except.ok (jobs', "job-1", saved) ∧
      saved = ([UploadFileM.mk (some "a.pdf") none,
                UploadFileM.mk (some "b.pdf") (some "disk full")].filter
          (fun f => f.saveError.isNone)).length ∧
      dictGet "job-1" jobs' = some (JobInfo.mk "queued" 0 saved errs) ∧
      saved + errs.length = 2 ∧
      (∀ f ∈ [UploadFileM.mk (some "a.pdf") none,
              UploadFileM.mk (some "b.pdf") (some "disk full")],
        ∀ e, f.saveError = some e → (safeName f.filename ++ ": " ++ e) ∈ errs) ∧
      jobs'.length = 0 + 1 ∧
      get_status jobs' "job-1" =
        Except.ok (IngestionStatus.mk "job-1" "queued" 0 saved errs) ∧
      (∀ j, dictGet j jobs' = none → get_status jobs' j = Except.error 404) :=
  upload_documents_spec [] "job-1"
    [UploadFileM.mk (some "a.pdf") none, UploadFileM.mk (some "b.pdf") (some "disk full")]
    (by decide) (by decide)

example : upload_documents [] "job-1"
    [UploadFileM.mk (some "a.pdf") none, UploadFileM.mk (some "b.pdf") (some "disk full")] =
    Except.ok ([("job-1", JobInfo.mk "queued" 0 1 ["b.pdf: disk full"])], "job-1", 1) := by
  decide
